import Mathlib

/-!
# Verification of the System Report Generator

A shallow embedding of the single-file Python program
(class SystemReport and function main).  The program queries the
operating system through psutil, builds a snapshot dictionary, renders
it as text or JSON and writes it to a file.

Modelling conventions:
* every OS query result is an explicit input value (the OS is
  nondeterministic, so collectors are functions of these inputs);
* Python floats are modelled as exact decimal numbers `Dec`
  (mantissa / 10 ^ exponent) — that is exactly the information the
  program ever observes of a float through `repr` / `json.dumps`;
* machine integers are `Int` (byte counters, pids, mtu, speed);
* exceptions are modelled with `Option` / `Except`:
  a skipped item is `none` / `Except.error`;
* `datetime` values are received from the OS already broken down into
  calendar fields (`Tm`); `strftime` is modelled by the explicit
  formatting functions below.
-/

namespace SysReport

/-- A decimal number `m / 10 ^ e`: the exact value denoted by the decimal
literal that Python would print for a float. -/
structure Dec where
  m : Int
  e : Nat
deriving DecidableEq, Repr

/-- Rational value of a decimal (via `mkRat`, so that it evaluates by
kernel reduction). -/
def Dec.toRat (d : Dec) : ℚ := mkRat d.m (10 ^ d.e)

/-- An integral decimal. -/
def Dec.ofInt (n : Int) : Dec := ⟨n, 0⟩

/-- Exact decimal value of `n / 2 ^ k` (Python float division of an int by
a power of two, e.g. `x / (1024 ** 2)`), using `1 / 2 ^ k = 5 ^ k / 10 ^ k`. -/
def Dec.ofDivPow2 (n : Int) (k : Nat) : Dec := ⟨n * 5 ^ k, k⟩

/-! ## Decimal digit strings -/

/-- Base-10 digits, least significant first, with explicit fuel (the
fuel makes the recursion structural, so it evaluates by reduction). -/
def natDigitsRevGo : Nat → Nat → List Nat
  | _, 0 => []
  | 0, _ + 1 => []
  | fuel + 1, n + 1 => (n + 1) % 10 :: natDigitsRevGo fuel ((n + 1) / 10)

/-- Base-10 digits of a natural number, least significant first
(empty for 0). -/
def natDigitsRev (n : Nat) : List Nat := natDigitsRevGo n n

/-- Value of a least-significant-first digit list. -/
def natOfRev : List Nat → Nat
  | [] => 0
  | d :: ds => d + 10 * natOfRev ds

/-- The character for one digit. -/
def digitChar (d : Nat) : Char := Char.ofNat (48 + d)

/-- Most-significant-first digit characters of a natural number;
`0` renders as "0", no leading zeros otherwise. -/
def natDecChars (n : Nat) : List Char :=
  if n = 0 then [digitChar 0] else ((natDigitsRev n).map digitChar).reverse

/-- Decimal string of a natural number. -/
def natDecStr (n : Nat) : String := String.mk (natDecChars n)

/-- Decimal string of an integer. -/
def intDecStr (n : Int) : String :=
  (if n < 0 then "-" else "") ++ natDecStr n.natAbs

/-- Render a `Dec` exactly the way Python prints the float or int it
stands for: the digits of the mantissa with a decimal point `e` places
from the right (zero-padded), no point at all when `e = 0`. -/
def Dec.render (d : Dec) : String :=
  let sign := if d.m < 0 then "-" else ""
  let ds := (natDecChars d.m.natAbs).leftpad (d.e + 1) (digitChar 0)
  if d.e = 0 then sign ++ String.mk ds
  else sign ++ String.mk (ds.take (ds.length - d.e)) ++ "." ++
    String.mk (ds.drop (ds.length - d.e))

/-- Python `"{:.1f}".format (q)`: one digit after the point, rounding to
the nearest tenth (half away from the grid is modelled as half-up). -/
def fmt1f (q : ℚ) : String :=
  let n : Int := ⌊q * 10 + 1 / 2⌋
  (if n < 0 then "-" else "") ++
    natDecStr (n.natAbs / 10) ++ "." ++ natDecStr (n.natAbs % 10)

/-- Python `"{:.0f}".format (q)`: round to the nearest integer. -/
def fmt0f (q : ℚ) : String :=
  let n : Int := ⌊q + 1 / 2⌋
  (if n < 0 then "-" else "") ++ natDecStr n.natAbs

/-- Left-pad a string with `'0'` to a given length (for `strftime`
two-digit fields). -/
def padZero (k : Nat) (s : String) : String :=
  String.mk (List.replicate (k - s.length) '0') ++ s

/-- A calendar date-time as the OS hands it to the program
(`datetime.datetime` after `now ()` / `fromtimestamp`). -/
structure Tm where
  year : Nat
  month : Nat
  day : Nat
  hour : Nat
  minute : Nat
  second : Nat
deriving DecidableEq, Repr

/-- `strftime ("%Y-%m-%d %H:%M:%S")`. -/
def Tm.fmtDateTime (t : Tm) : String :=
  padZero 4 (natDecStr t.year) ++ "-" ++ padZero 2 (natDecStr t.month) ++ "-" ++
    padZero 2 (natDecStr t.day) ++ " " ++ padZero 2 (natDecStr t.hour) ++ ":" ++
    padZero 2 (natDecStr t.minute) ++ ":" ++ padZero 2 (natDecStr t.second)

/-- `strftime ("%Y%m%d_%H%M%S")` (the default file-name stamp). -/
def Tm.fmtCompact (t : Tm) : String :=
  padZero 4 (natDecStr t.year) ++ padZero 2 (natDecStr t.month) ++
    padZero 2 (natDecStr t.day) ++ "_" ++ padZero 2 (natDecStr t.hour) ++
    padZero 2 (natDecStr t.minute) ++ padZero 2 (natDecStr t.second)

/-- `strftime ("%H:%M:%S")` (login time of a user session). -/
def Tm.fmtHMS (t : Tm) : String :=
  padZero 2 (natDecStr t.hour) ++ ":" ++ padZero 2 (natDecStr t.minute) ++
    ":" ++ padZero 2 (natDecStr t.second)

/-- Python truthiness of an optional string (`None` and `""` are falsy). -/
def pyTruthy : Option String → Bool
  | none => false
  | some s => s ≠ ""

/-! ## The process collector (`SystemReport._processes`)

`psutil.process_iter` enumerates processes; for each one the program
reads the info dictionary and looks up the resident set size, skipping
the process if `NoSuchProcess` / `AccessDenied` is raised (modelled: the
enumeration yields `none` for such a process).  The survivors are sorted
descending by `memory_percent` with Python's stable `list.sort`
(modelled by `List.insertionSort`, which is stable) and truncated to 8. -/

/-- One successfully queried process: the `p.info` dictionary plus the
`memory_mb` field the program adds (`rss / 1024 ** 2`). -/
structure ProcInfo where
  pid : Int
  name : String
  cpu_percent : Dec
  memory_percent : Dec
  memory_mb : Dec
deriving DecidableEq, Repr

/-- The raw OS answers for one process: the requested info fields and the
resident set size in bytes. -/
structure ProcQ where
  pid : Int
  name : String
  cpu_percent : Dec
  memory_percent : Dec
  rss : Int
deriving DecidableEq, Repr

/-- The dictionary appended for one reachable process
(`info ["memory_mb"] = rss / 1024 ** 2`). -/
def mkProcInfo (p : ProcQ) : ProcInfo :=
  { pid := p.pid, name := p.name, cpu_percent := p.cpu_percent
    memory_percent := p.memory_percent
    memory_mb := Dec.ofDivPow2 p.rss 20 }

/-- One enumerated process as queried from the OS (`none`: the query
raised `NoSuchProcess` or `AccessDenied` and the process is skipped). -/
abbrev ProcQuery : Type := Option ProcQ

/-- The comparison `list.sort (key = ..., reverse = True)` uses:
descending by `memory_percent` (`x.get ("memory_percent", 0)`; the key
is always present in the info dictionary). -/
def procGE (a b : ProcInfo) : Prop :=
  b.memory_percent.toRat ≤ a.memory_percent.toRat

instance : DecidableRel procGE := fun a b =>
  inferInstanceAs (Decidable (b.memory_percent.toRat ≤ a.memory_percent.toRat))

instance : IsTotal ProcInfo procGE :=
  ⟨fun a b => by unfold procGE; exact le_total _ _⟩

instance : IsTrans ProcInfo procGE :=
  ⟨fun _ _ _ hab hbc => le_trans hbc hab⟩

/-- `SystemReport._processes`: collect the reachable processes, sort them
descending by memory percentage (stable) and keep the first 8. -/
def processesCollect (qs : List ProcQuery) : List ProcInfo :=
  (((qs.filterMap id).map mkProcInfo).insertionSort procGE).take 8

/-! ## The remaining collectors and the snapshot -/

/-- `SystemReport._platform`: the five strings queried from
`platform` / `socket` (the queries are modelled as already answered). -/
structure PlatformInfo where
  system : String
  release : String
  version : String
  host : String
  ip : String
deriving DecidableEq, Repr

/-- The OS answers used by `SystemReport._cpu`. -/
structure CpuQuery where
  freq : Option Dec
  physical_cores : Option Nat
  logical_cores : Option Nat
  usage : Dec
  per_cpu : List Dec
deriving DecidableEq, Repr

/-- The `cpu` entry of the snapshot. -/
structure CpuInfo where
  physical_cores : Option Nat
  logical_cores : Option Nat
  freq : String
  usage : Dec
  per_cpu : List Dec
deriving DecidableEq, Repr

/-- `SystemReport._cpu`: core counts and utilisation are passed through
unchanged; the frequency is rendered (or "N/A" when `cpu_freq` gave
nothing). -/
def cpuCollect (cq : CpuQuery) : CpuInfo :=
  { physical_cores := cq.physical_cores
    logical_cores := cq.logical_cores
    freq := match cq.freq with
      | some f => fmt0f f.toRat ++ " MHz"
      | none => "N/A"
    usage := cq.usage
    per_cpu := cq.per_cpu }

/-- The OS answers used by `SystemReport._memory`
(`virtual_memory` and `swap_memory`). -/
structure MemQuery where
  vtotal : Int
  vused : Int
  vpercent : Dec
  swap_used : Int
  swap_total : Int
deriving DecidableEq, Repr

/-- The `memory` entry of the snapshot. -/
structure MemoryInfo where
  total_ram : String
  used_ram : String
  ram_percent : Dec
  swap : String
deriving DecidableEq, Repr

/-- `SystemReport._memory`: byte counts are rendered in GiB with one
decimal; the percentage is passed through unchanged. -/
def memoryCollect (mq : MemQuery) : MemoryInfo :=
  { total_ram := fmt1f ((mq.vtotal : ℚ) / 2 ^ 30) ++ " GB"
    used_ram := fmt1f ((mq.vused : ℚ) / 2 ^ 30) ++ " GB"
    ram_percent := mq.vpercent
    swap := fmt1f ((mq.swap_used : ℚ) / 2 ^ 30) ++ "/" ++
      fmt1f ((mq.swap_total : ℚ) / 2 ^ 30) ++ " GB" }

/-- One entry of `psutil.disk_partitions ()`. -/
structure PartEntry where
  device : String
  mountpoint : String
  fstype : String
deriving DecidableEq, Repr

/-- The result of `psutil.disk_usage (mountpoint)`. -/
structure UsageInfo where
  total : Int
  used : Int
  free : Int
  percent : Dec
deriving DecidableEq, Repr

/-- One entry of `disk_io_counters (perdisk = True)`. -/
structure IOCount where
  read_bytes : Int
  write_bytes : Int
deriving DecidableEq, Repr

/-- Everything the disk loop observes about one partition:
`usage = none` models `disk_usage` raising `PermissionError` / `OSError`;
`ioq = none` models the broad `except` in the I/O-counter block firing,
`ioq = some none` models the device being absent from the per-disk
dictionary. -/
structure DiskQuery where
  part : PartEntry
  usage : Option UsageInfo
  ioq : Option (Option IOCount)
deriving DecidableEq, Repr

/-- One `disk_info` dictionary of the snapshot.  `readWrite` carries the
pair of optional keys `read_bytes` / `write_bytes` (both present or both
absent). -/
structure DiskInfo where
  device : String
  mountpoint : String
  fstype : String
  total : String
  used : String
  free : String
  percent : Dec
  readWrite : Option (String × String)
deriving DecidableEq, Repr

/-- The record pushed for one accessible partition. -/
def mkDiskInfo (dq : DiskQuery) (u : UsageInfo) : DiskInfo :=
  { device := dq.part.device
    mountpoint := dq.part.mountpoint
    fstype := dq.part.fstype
    total := fmt1f ((u.total : ℚ) / 2 ^ 30) ++ " GB"
    used := fmt1f ((u.used : ℚ) / 2 ^ 30) ++ " GB"
    free := fmt1f ((u.free : ℚ) / 2 ^ 30) ++ " GB"
    percent := u.percent
    readWrite := match dq.ioq with
      | some (some k) => some
          (fmt1f ((k.read_bytes : ℚ) / 2 ^ 20) ++ " MB",
           fmt1f ((k.write_bytes : ℚ) / 2 ^ 20) ++ " MB")
      | _ => none }

/-- `SystemReport._disks`: the partition loop; a partition whose usage
lookup raised is skipped with `continue`. -/
def disksCollect : List DiskQuery → List DiskInfo
  | [] => []
  | dq :: rest =>
    match dq.usage with
    | none => disksCollect rest
    | some u => mkDiskInfo dq u :: disksCollect rest

/-- Address family as reported by `psutil.net_if_addrs`. -/
inductive AddrFamily where
  | inet
  | inet6
  | link
  | other
deriving DecidableEq, Repr

/-- One address record of an interface. -/
structure AddrEntry where
  family : AddrFamily
  address : String
  netmask : String
deriving DecidableEq, Repr

/-- One entry of `psutil.net_if_stats ()`. -/
structure StatQuery where
  isup : Bool
  speed : Int
  mtu : Int
deriving DecidableEq, Repr

/-- The `stats` sub-dictionary built for an interface present in the
stats table. -/
structure StatsInfo where
  is_up : String
  speed : String
  mtu : Int
deriving DecidableEq, Repr

/-- Per-interface entry of the snapshot (`stats = none` models the empty
dictionary used when the interface is missing from the stats table). -/
structure IfaceInfo where
  ip_addresses : List String
  mac : Option String
  stats : Option StatsInfo
deriving DecidableEq, Repr

/-- The OS answers used by `SystemReport._network`. -/
structure NetQuery where
  bytes_sent : Int
  bytes_recv : Int
  packets_sent : Int
  packets_recv : Int
  ifaddrs : List (String × List AddrEntry)
  ifstats : List (String × StatQuery)
deriving DecidableEq, Repr

/-- The `network` entry of the snapshot. -/
structure NetworkInfo where
  bytes_sent : String
  bytes_recv : String
  packets_sent : Int
  packets_recv : Int
  interfaces : List (String × IfaceInfo)
deriving DecidableEq, Repr

/-- Classification of one address in the loop body: IPv4 and IPv6
addresses are rendered into the `ip_addresses` list, link-layer and other
families are not. -/
def classifyAddr (a : AddrEntry) : Option String :=
  match a.family with
  | .inet => some ("IPv4: " ++ a.address ++ "/" ++ a.netmask)
  | .inet6 => some ("IPv6: " ++ a.address)
  | _ => none

/-- `mac_address` after the loop: the last link-layer address wins. -/
def macOf (addrs : List AddrEntry) : Option String :=
  ((addrs.filter (fun a => decide (a.family = AddrFamily.link))).map
    (fun a => a.address)).getLast?

/-- The `stats` sub-dictionary (`if iface in net_if_stats`). -/
def statsOf (ifstats : List (String × StatQuery)) (iface : String) :
    Option StatsInfo :=
  (ifstats.lookup iface).map (fun st =>
    { is_up := if st.isup then "UP" else "DOWN"
      speed := if (0 : Int) < st.speed then intDecStr st.speed ++ " Mbps"
        else "N/A"
      mtu := st.mtu })

/-- The body of the interface loop. -/
def ifaceCollect (ifstats : List (String × StatQuery))
    (p : String × List AddrEntry) : String × IfaceInfo :=
  (p.1,
    { ip_addresses := p.2.filterMap classifyAddr
      mac := macOf p.2
      stats := statsOf ifstats p.1 })

/-- `SystemReport._network`. -/
def networkCollect (nq : NetQuery) : NetworkInfo :=
  { bytes_sent := fmt1f ((nq.bytes_sent : ℚ) / 2 ^ 20) ++ " MB"
    bytes_recv := fmt1f ((nq.bytes_recv : ℚ) / 2 ^ 20) ++ " MB"
    packets_sent := nq.packets_sent
    packets_recv := nq.packets_recv
    interfaces := nq.ifaddrs.map (ifaceCollect nq.ifstats) }

/-- One entry of `psutil.users ()` (`started` already broken down by
`fromtimestamp`). -/
structure UserQuery where
  name : String
  host : String
  started : Tm
deriving DecidableEq, Repr

/-- One user record of the snapshot. -/
structure UserInfo where
  name : String
  host : String
  started : String
deriving DecidableEq, Repr

/-- `SystemReport._users`. -/
def usersCollect (uq : List UserQuery) : List UserInfo :=
  uq.map (fun u => { name := u.name, host := u.host, started := u.started.fmtHMS })

/-- One reading of `psutil.sensors_temperatures ()`. -/
structure SensorEntry where
  label : String
  current : Dec
  high : Option Dec
  critical : Option Dec
deriving DecidableEq, Repr

/-- The `sensors` entry of the snapshot: either the placeholder
dictionary containing only `info: "N/A"` (written on `AttributeError`) or
the mapping from group name to the reduced readings. -/
inductive SensorsField where
  | placeholder
  | readings (groups : List (String × List Dec))
deriving DecidableEq, Repr

/-- `SystemReport._sensors`: `none` models the platform raising
`AttributeError` (no `sensors_temperatures` at all); otherwise each group
keeps at most its first two entries, each reduced to `current`. -/
def sensorsCollect (q : Option (List (String × List SensorEntry))) :
    SensorsField :=
  match q with
  | none => .placeholder
  | some temps =>
    .readings (temps.map (fun g => (g.1, (g.2.take 2).map (fun s => s.current))))

/-- The snapshot dictionary built by `SystemReport.collect`. -/
structure Snapshot where
  time : String
  platform : PlatformInfo
  cpu : CpuInfo
  memory : MemoryInfo
  disks : List DiskInfo
  network : NetworkInfo
  processes : List ProcInfo
  users : List UserInfo
  boot : String
  sensors : SensorsField
deriving DecidableEq, Repr

/-- Every OS answer observed during one invocation. -/
structure OSInputs where
  now : Tm
  platform : PlatformInfo
  cpu : CpuQuery
  memory : MemQuery
  disks : List DiskQuery
  network : NetQuery
  procs : List ProcQuery
  users : List UserQuery
  boot : Tm
  sensors : Option (List (String × List SensorEntry))
deriving DecidableEq, Repr

/-- `SystemReport.collect` (with `self.time` set in `__init__`). -/
def collect (i : OSInputs) : Snapshot :=
  { time := i.now.fmtDateTime
    platform := i.platform
    cpu := cpuCollect i.cpu
    memory := memoryCollect i.memory
    disks := disksCollect i.disks
    network := networkCollect i.network
    processes := processesCollect i.procs
    users := usersCollect i.users
    boot := i.boot.fmtDateTime
    sensors := sensorsCollect i.sensors }

/-! ## The text renderer (`SystemReport.text_report`)

The Python method builds a list of lines and joins it with newlines;
`textReportLines` is that list. -/

/-- The separator of 60 equal signs. -/
def sepEq : String := String.mk (List.replicate 60 '=')

/-- The separator of 40 dashes. -/
def sepDash : String := String.mk (List.replicate 40 '-')

/-- `f"{v}"` for an optional core count (`None` prints as "None"). -/
def pyShowOptNat : Option Nat → String
  | none => "None"
  | some n => natDecStr n

/-- First `n` characters of a string (Python slice `s [:20]`). -/
def strTake (n : Nat) (s : String) : String := String.mk (s.toList.take n)

/-- Left-align in a field of `n` spaces (Python `"{:20}"` on a string). -/
def padRightSp (n : Nat) (s : String) : String :=
  s ++ String.mk (List.replicate (n - s.length) ' ')

/-- Right-align in a field of `n` spaces (Python `"{:6}"` on a number). -/
def padLeftSp (n : Nat) (s : String) : String :=
  String.mk (List.replicate (n - s.length) ' ') ++ s

/-- The lines of one disk entry (loop body of the disks section). -/
def diskBlockLines (i : Nat) (d : DiskInfo) : List String :=
  [natDecStr i ++ ". " ++ d.device ++ " → " ++ d.mountpoint,
   "   Тип: " ++ d.fstype ++ ", Всего: " ++ d.total,
   "   Использовано: " ++ d.used ++ " (" ++ d.percent.render ++
     "%), Свободно: " ++ d.free] ++
  (match d.readWrite with
   | some rw => ["   Чтение: " ++ rw.1 ++ ", Запись: " ++ rw.2]
   | none => [])

/-- The lines of one interface (loop body of the interface section):
nothing at all when the collected address list is empty, otherwise the
header, the MAC line when a MAC is known (and non-empty), the first two
addresses only, and the status line when stats are known. -/
def ifaceBlockLines (p : String × IfaceInfo) : List String :=
  if p.2.ip_addresses = [] then []
  else
    ["\n" ++ p.1 ++ ":"] ++
    (match p.2.mac with
     | some m => if m = "" then [] else ["  MAC: " ++ m]
     | none => []) ++
    (p.2.ip_addresses.take 2).map (fun ip => "  " ++ ip) ++
    (match p.2.stats with
     | some st => ["  Статус: " ++ st.is_up ++ ", Скорость: " ++ st.speed]
     | none => [])

/-- One line of the top-8 process table. -/
def procLine (i : Nat) (p : ProcInfo) : String :=
  natDecStr i ++ ". " ++ padRightSp 20 (strTake 20 p.name) ++ " PID:" ++
    padLeftSp 6 (intDecStr p.pid) ++ " CPU:" ++
    padLeftSp 5 p.cpu_percent.render ++ "% MEM:" ++
    padLeftSp 5 p.memory_percent.render ++ "%"

/-- `enumerate (..., 1)`: blocks of lines numbered from `i`. -/
def enumBlocks {α : Type} (f : Nat → α → List String) :
    Nat → List α → List String
  | _, [] => []
  | i, x :: xs => f i x ++ enumBlocks f (i + 1) xs

/-- One line of the active-users section. -/
def userLine (u : UserInfo) : String :=
  u.name ++ " с " ++ u.host ++ " (с " ++ u.started ++ ")"

/-- The whole users section: absent when there are no sessions. -/
def usersSectionLines (us : List UserInfo) : List String :=
  if us = [] then []
  else ["\nАКТИВНЫЕ ПОЛЬЗОВАТЕЛИ:", sepDash] ++ us.map userLine

/-- All lines of the report before the users section. -/
def preUsersLines (s : Snapshot) : List String :=
  [sepEq, "СИСТЕМНЫЙ ОТЧЕТ - " ++ s.time, sepEq] ++
  ["\nПЛАТФОРМА:", sepDash,
   "Система: " ++ s.platform.system ++ " " ++ s.platform.release,
   "Версия: " ++ s.platform.version,
   "Хост: " ++ s.platform.host,
   "IP-адрес: " ++ s.platform.ip] ++
  ["\nПРОЦЕССОР:", sepDash,
   "Ядра: " ++ pyShowOptNat s.cpu.physical_cores ++ " физических, " ++
     pyShowOptNat s.cpu.logical_cores ++ " логических",
   "Частота: " ++ s.cpu.freq,
   "Загрузка: " ++ s.cpu.usage.render ++ "%",
   "По ядрам: " ++ String.intercalate ", "
     (s.cpu.per_cpu.map (fun p => p.render ++ "%"))] ++
  ["\nПАМЯТЬ:", sepDash,
   "ОЗУ: " ++ s.memory.used_ram ++ " / " ++ s.memory.total_ram ++
     " (" ++ s.memory.ram_percent.render ++ "%)",
   "SWAP: " ++ s.memory.swap] ++
  ["\nДИСКОВЫЕ НАКОПИТЕЛИ:", sepDash] ++
  enumBlocks diskBlockLines 1 s.disks ++
  ["\nСЕТЕВЫЕ ИНТЕРФЕЙСЫ:", sepDash,
   "Отправлено: " ++ s.network.bytes_sent ++ ", Получено: " ++
     s.network.bytes_recv,
   "Пакеты: отправлено " ++ intDecStr s.network.packets_sent ++
     ", получено " ++ intDecStr s.network.packets_recv] ++
  s.network.interfaces.flatMap ifaceBlockLines ++
  ["\nТОП-8 ПРОЦЕССОВ:", sepDash] ++
  enumBlocks (fun i p => [procLine i p]) 1 s.processes

/-- All lines of the report after the users section. -/
def postUsersLines (s : Snapshot) : List String :=
  ["\nВРЕМЯ ЗАГРУЗКИ: " ++ s.boot, sepEq]

/-- `SystemReport.text_report`, as the list of lines it joins. -/
def textReportLines (s : Snapshot) : List String :=
  [sepEq, "СИСТЕМНЫЙ ОТЧЕТ - " ++ s.time, sepEq] ++
  ["\nПЛАТФОРМА:", sepDash,
   "Система: " ++ s.platform.system ++ " " ++ s.platform.release,
   "Версия: " ++ s.platform.version,
   "Хост: " ++ s.platform.host,
   "IP-адрес: " ++ s.platform.ip] ++
  ["\nПРОЦЕССОР:", sepDash,
   "Ядра: " ++ pyShowOptNat s.cpu.physical_cores ++ " физических, " ++
     pyShowOptNat s.cpu.logical_cores ++ " логических",
   "Частота: " ++ s.cpu.freq,
   "Загрузка: " ++ s.cpu.usage.render ++ "%",
   "По ядрам: " ++ String.intercalate ", "
     (s.cpu.per_cpu.map (fun p => p.render ++ "%"))] ++
  ["\nПАМЯТЬ:", sepDash,
   "ОЗУ: " ++ s.memory.used_ram ++ " / " ++ s.memory.total_ram ++
     " (" ++ s.memory.ram_percent.render ++ "%)",
   "SWAP: " ++ s.memory.swap] ++
  ["\nДИСКОВЫЕ НАКОПИТЕЛИ:", sepDash] ++
  enumBlocks diskBlockLines 1 s.disks ++
  ["\nСЕТЕВЫЕ ИНТЕРФЕЙСЫ:", sepDash,
   "Отправлено: " ++ s.network.bytes_sent ++ ", Получено: " ++
     s.network.bytes_recv,
   "Пакеты: отправлено " ++ intDecStr s.network.packets_sent ++
     ", получено " ++ intDecStr s.network.packets_recv] ++
  s.network.interfaces.flatMap ifaceBlockLines ++
  ["\nТОП-8 ПРОЦЕССОВ:", sepDash] ++
  enumBlocks (fun i p => [procLine i p]) 1 s.processes ++
  (if s.users = [] then []
   else ["\nАКТИВНЫЕ ПОЛЬЗОВАТЕЛИ:", sepDash] ++ s.users.map userLine) ++
  ["\nВРЕМЯ ЗАГРУЗКИ: " ++ s.boot, sepEq]

/-- `SystemReport.text_report`. -/
def text_report (s : Snapshot) : String :=
  String.intercalate "\n" (textReportLines s)

/-! ## The JSON renderer (`SystemReport.json_report`)

`json.dumps (self.info, indent = 2, default = str)`.  Every value in the
snapshot dictionary is JSON-native (strings, numbers, lists,
dictionaries, `None`), so `default = str` is never invoked.  Non-ASCII
characters are modelled as emitted verbatim; that choice does not affect
the data-preservation property. -/

/-- JSON values as the snapshot serialises to.  A number is carried as
the decimal `Dec` (integers have `e = 0` and print without a point,
exactly as Python prints ints versus floats). -/
inductive Json where
  | null
  | num (d : Dec)
  | str (s : String)
  | arr (xs : List Json)
  | obj (kvs : List (String × Json))

/-- Lower-case hexadecimal digit. -/
def hexChar (n : Nat) : Char :=
  if n < 10 then digitChar n else Char.ofNat (87 + n)

/-- JSON string escaping of one character (shortcut escapes for the
common control characters, `\uXXXX` for the rest). -/
def escapeChar (c : Char) : List Char :=
  if c = '"' then ['\\', '"']
  else if c = '\\' then ['\\', '\\']
  else if c = '\n' then ['\\', 'n']
  else if c = '\t' then ['\\', 't']
  else if c = '\r' then ['\\', 'r']
  else if c.toNat = 8 then ['\\', 'b']
  else if c.toNat = 12 then ['\\', 'f']
  else if c.toNat < 32 then
    ['\\', 'u', '0', '0', hexChar (c.toNat / 16), hexChar (c.toNat % 16)]
  else [c]

/-- A quoted, escaped JSON string. -/
def renderStr (s : String) : List Char :=
  '"' :: (s.toList.flatMap escapeChar ++ ['"'])

/-- The `indent = 2` prefix at nesting depth `d`. -/
def indentChars (d : Nat) : List Char := List.replicate (2 * d) ' '

mutual

/-- Pretty-printed JSON at nesting depth `d`, as `json.dumps` with
`indent = 2` lays it out. -/
def renderVal (j : Json) (d : Nat) : List Char :=
  match j with
  | .null => ['n', 'u', 'l', 'l']
  | .num dc => (Dec.render dc).toList
  | .str s => renderStr s
  | .arr [] => ['[', ']']
  | .arr (x :: rest) =>
    '[' :: '\n' :: (indentChars (d + 1) ++ renderVal x (d + 1) ++
      renderItems rest (d + 1) ++ '\n' :: (indentChars d ++ [']']))
  | .obj [] => ['\x7b', '\x7d']
  | .obj (kv :: rest) =>
    '\x7b' :: '\n' :: (indentChars (d + 1) ++ renderStr kv.1 ++
      ':' :: ' ' :: renderVal kv.2 (d + 1) ++
      renderMembers rest (d + 1) ++ '\n' :: (indentChars d ++ ['\x7d']))

/-- The remaining array items, each preceded by `,\n` and the indent. -/
def renderItems (xs : List Json) (d : Nat) : List Char :=
  match xs with
  | [] => []
  | x :: rest =>
    ',' :: '\n' :: (indentChars d ++ renderVal x d ++ renderItems rest d)

/-- The remaining object members. -/
def renderMembers (kvs : List (String × Json)) (d : Nat) : List Char :=
  match kvs with
  | [] => []
  | kv :: rest =>
    ',' :: '\n' :: (indentChars d ++ renderStr kv.1 ++ ':' :: ' ' ::
      renderVal kv.2 d ++ renderMembers rest d)

end

/-- The JSON value of the snapshot dictionary, key for key in insertion
order. -/
def optStrJson : Option String → Json
  | none => .null
  | some s => .str s

def optNatJson : Option Nat → Json
  | none => .null
  | some n => .num (Dec.ofInt n)

def platformJson (p : PlatformInfo) : Json :=
  .obj [("system", .str p.system), ("release", .str p.release),
        ("version", .str p.version), ("host", .str p.host),
        ("ip", .str p.ip)]

def cpuJson (c : CpuInfo) : Json :=
  .obj [("physical_cores", optNatJson c.physical_cores),
        ("logical_cores", optNatJson c.logical_cores),
        ("freq", .str c.freq),
        ("usage", .num c.usage),
        ("per_cpu", .arr (c.per_cpu.map Json.num))]

def memoryJson (m : MemoryInfo) : Json :=
  .obj [("total_ram", .str m.total_ram), ("used_ram", .str m.used_ram),
        ("ram_percent", .num m.ram_percent), ("swap", .str m.swap)]

def diskJson (d : DiskInfo) : Json :=
  .obj ([("device", .str d.device), ("mountpoint", .str d.mountpoint),
         ("fstype", .str d.fstype), ("total", .str d.total),
         ("used", .str d.used), ("free", .str d.free),
         ("percent", .num d.percent)] ++
        (match d.readWrite with
         | some rw => [("read_bytes", .str rw.1), ("write_bytes", .str rw.2)]
         | none => []))

def statsJson : Option StatsInfo → Json
  | none => .obj []
  | some st =>
    .obj [("is_up", .str st.is_up), ("speed", .str st.speed),
          ("mtu", .num (Dec.ofInt st.mtu))]

def ifaceJson (p : String × IfaceInfo) : String × Json :=
  (p.1, .obj [("ip_addresses", .arr (p.2.ip_addresses.map Json.str)),
              ("mac", optStrJson p.2.mac),
              ("stats", statsJson p.2.stats)])

def networkJson (n : NetworkInfo) : Json :=
  .obj [("bytes_sent", .str n.bytes_sent), ("bytes_recv", .str n.bytes_recv),
        ("packets_sent", .num (Dec.ofInt n.packets_sent)),
        ("packets_recv", .num (Dec.ofInt n.packets_recv)),
        ("interfaces", .obj (n.interfaces.map ifaceJson))]

def procJson (p : ProcInfo) : Json :=
  .obj [("pid", .num (Dec.ofInt p.pid)), ("name", .str p.name),
        ("cpu_percent", .num p.cpu_percent),
        ("memory_percent", .num p.memory_percent),
        ("memory_mb", .num p.memory_mb)]

def userJson (u : UserInfo) : Json :=
  .obj [("name", .str u.name), ("host", .str u.host),
        ("started", .str u.started)]

def sensorsJson : SensorsField → Json
  | .placeholder => .obj [("info", .str "N/A")]
  | .readings gs =>
    .obj (gs.map (fun g =>
      (g.1, Json.arr (g.2.map (fun d => Json.obj [("current", Json.num d)])))))

def snapshotJson (s : Snapshot) : Json :=
  .obj [("time", .str s.time),
        ("platform", platformJson s.platform),
        ("cpu", cpuJson s.cpu),
        ("memory", memoryJson s.memory),
        ("disks", .arr (s.disks.map diskJson)),
        ("network", networkJson s.network),
        ("processes", .arr (s.processes.map procJson)),
        ("users", .arr (s.users.map userJson)),
        ("boot", .str s.boot),
        ("sensors", sensorsJson s.sensors)]

/-- `SystemReport.json_report`. -/
def json_report (s : Snapshot) : String :=
  String.mk (renderVal (snapshotJson s) 0)

/-! ## A JSON reader

`json.loads` as far as the emitted grammar reaches: used to state that
serialisation loses no data (claim C6).  The reader is whitespace
tolerant, so the statement does not depend on the exact indentation. -/

/-- JSON insignificant whitespace. -/
def isWs (c : Char) : Bool :=
  c = ' ' || c = '\n' || c = '\t' || c = '\r'

/-- Skip insignificant whitespace. -/
def skipWs (cs : List Char) : List Char := cs.dropWhile isWs

/-- Numeric value of a most-significant-first digit character list. -/
def digitsVal (ds : List Char) : Nat :=
  ds.foldl (fun a c => 10 * a + (c.toNat - 48)) 0

/-- Value of a hexadecimal digit character. -/
def hexVal (c : Char) : Nat :=
  if c.toNat ≤ 57 then c.toNat - 48
  else if c.toNat ≤ 70 then c.toNat - 55
  else c.toNat - 87

/-- Hexadecimal digit test. -/
def isHexB (c : Char) : Bool :=
  c.isDigit || ('a' ≤ c && c ≤ 'f') || ('A' ≤ c && c ≤ 'F')

/-- Read a number token (optional sign, digits, optional fraction) into
the decimal it denotes. -/
def parseNum (cs : List Char) : Option (Json × List Char) :=
  let neg : Bool := decide (cs.head? = some '-')
  let cs1 := if neg then cs.tail else cs
  let sgn : Int := if neg then -1 else 1
  let ds := cs1.takeWhile Char.isDigit
  let cs2 := cs1.dropWhile Char.isDigit
  if ds.isEmpty then none
  else if cs2.head? = some '.' then
    let cs3 := cs2.tail
    let fs := cs3.takeWhile Char.isDigit
    let cs4 := cs3.dropWhile Char.isDigit
    if fs.isEmpty then none
    else some (.num ⟨sgn * (digitsVal (ds ++ fs) : Int), fs.length⟩, cs4)
  else some (.num ⟨sgn * (digitsVal ds : Int), 0⟩, cs2)

/-- Read the body of a string literal after the opening quote, undoing
the escapes; returns the content and what follows the closing quote. -/
def parseStringBody (cs : List Char) : Option (List Char × List Char) :=
  match cs with
  | [] => none
  | c :: rest =>
    if c = '"' then some ([], rest)
    else if c = '\\' then
      match rest with
      | [] => none
      | e :: rest2 =>
        if e = 'u' then
          match rest2 with
          | h1 :: h2 :: h3 :: h4 :: rest3 =>
            if isHexB h1 && isHexB h2 && isHexB h3 && isHexB h4 then
              (parseStringBody rest3).map (fun pr =>
                (Char.ofNat
                  (((hexVal h1 * 16 + hexVal h2) * 16 + hexVal h3) * 16 +
                    hexVal h4) :: pr.1, pr.2))
            else none
          | _ => none
        else
          match
            (if e = '"' then some '"'
             else if e = '\\' then some '\\'
             else if e = '/' then some '/'
             else if e = 'n' then some '\n'
             else if e = 't' then some '\t'
             else if e = 'r' then some '\r'
             else if e = 'b' then some (Char.ofNat 8)
             else if e = 'f' then some (Char.ofNat 12)
             else none) with
          | none => none
          | some c2 =>
            (parseStringBody rest2).map (fun pr => (c2 :: pr.1, pr.2))
    else (parseStringBody rest).map (fun pr => (c :: pr.1, pr.2))
termination_by cs.length
decreasing_by all_goals (simp_all; try omega)

mutual

/-- Read one JSON value (fuelled recursion; the fuel only needs to cover
the nesting structure of the value). -/
def parseVal : Nat → List Char → Option (Json × List Char)
  | 0, _ => none
  | fuel + 1, cs =>
    let cs1 := skipWs cs
    if cs1.take 4 = ['n', 'u', 'l', 'l'] then some (.null, cs1.drop 4)
    else if cs1.head? = some '"' then
      (parseStringBody cs1.tail).map (fun pr => (.str (String.mk pr.1), pr.2))
    else if cs1.head? = some '[' then
      let rest1 := skipWs cs1.tail
      if rest1.head? = some ']' then some (.arr [], rest1.tail)
      else
        (parseVal fuel rest1).bind (fun pr =>
          (parseItems fuel pr.2).map (fun pr2 =>
            (.arr (pr.1 :: pr2.1), pr2.2)))
    else if cs1.head? = some '\x7b' then
      let rest1 := skipWs cs1.tail
      if rest1.head? = some '\x7d' then some (.obj [], rest1.tail)
      else
        (parseMember fuel rest1).bind (fun pr =>
          (parseMembers fuel pr.2).map (fun pr2 =>
            (.obj (pr.1 :: pr2.1), pr2.2)))
    else parseNum cs1

/-- Read one `"key": value` member. -/
def parseMember : Nat → List Char → Option ((String × Json) × List Char)
  | 0, _ => none
  | fuel + 1, cs =>
    let cs1 := skipWs cs
    if cs1.head? = some '"' then
      (parseStringBody cs1.tail).bind (fun pr =>
        let cs2 := skipWs pr.2
        if cs2.head? = some ':' then
          (parseVal fuel cs2.tail).map (fun pr2 =>
            ((String.mk pr.1, pr2.1), pr2.2))
        else none)
    else none

/-- Read `, value`* `]` after the first array item. -/
def parseItems : Nat → List Char → Option (List Json × List Char)
  | 0, _ => none
  | fuel + 1, cs =>
    let cs1 := skipWs cs
    if cs1.head? = some ']' then some ([], cs1.tail)
    else if cs1.head? = some ',' then
      (parseVal fuel cs1.tail).bind (fun pr =>
        (parseItems fuel pr.2).map (fun pr2 => (pr.1 :: pr2.1, pr2.2)))
    else none

/-- Read `, member`* and the closing brace after the first member. -/
def parseMembers : Nat → List Char → Option (List (String × Json) × List Char)
  | 0, _ => none
  | fuel + 1, cs =>
    let cs1 := skipWs cs
    if cs1.head? = some '\x7d' then some ([], cs1.tail)
    else if cs1.head? = some ',' then
      (parseMember fuel cs1.tail).bind (fun pr =>
        (parseMembers fuel pr.2).map (fun pr2 => (pr.1 :: pr2.1, pr2.2)))
    else none

end

/-- Parse a complete JSON document: one value and nothing but whitespace
after it. -/
def parseJson (s : String) : Option Json :=
  (parseVal (s.length + 1) s.toList).bind (fun pr =>
    if skipWs pr.2 = [] then some pr.1 else none)

/-! ## Saving and the CLI shell (`SystemReport.save`, `main`) -/

/-- The file name chosen by `SystemReport.save`: the argument when it is
truthy (non-`None`, non-empty), otherwise a stamp of the current time at
the moment of saving; then the extension for the format. -/
def saveFname (fmt : String) (fname : Option String) (saveNow : Tm) :
    String :=
  let base := match fname with
    | some f2 =>
      if f2 = "" then "system_report_" ++ saveNow.fmtCompact else f2
    | none => "system_report_" ++ saveNow.fmtCompact
  base ++ (if fmt = "json" then ".json" else ".txt")

/-- What `SystemReport.save` writes: the chosen file name and the
rendered content for the format. -/
def saveResult (fmt : String) (s : Snapshot) (fname : Option String)
    (saveNow : Tm) : String × String :=
  (saveFname fmt fname saveNow,
   if fmt = "json" then json_report s else text_report s)

/-- The parsed command line. -/
structure Args where
  format : String
  output : Option String
  print : Bool
deriving DecidableEq, Repr

/-- The observable effects of `main` on the happy path: what is printed
to the console and what is written to a file. -/
structure MainEffects where
  printed : Option String
  saved : Option (String × String)
deriving DecidableEq, Repr

/-- `main`: print the report when `--print` is set; save it when
`--output` is truthy or `--print` was not set. -/
def mainRun (args : Args) (i : OSInputs) (saveNow : Tm) : MainEffects :=
  let s := collect i
  { printed :=
      if args.print then
        some (if args.format = "json" then json_report s else text_report s)
      else none
    saved :=
      if pyTruthy args.output || !args.print then
        some (saveResult args.format s args.output saveNow)
      else none }

/-! ## Structural size of a JSON value (fuel bound for the reader) -/

mutual

/-- Nesting size of a value: enough fuel for `parseVal`. -/
def sizeJ : Json → Nat
  | .null => 1
  | .num _ => 1
  | .str _ => 1
  | .arr xs => 2 + sizeItems xs
  | .obj kvs => 2 + sizeMembers kvs

/-- Fuel needed by `parseItems` for the remaining items. -/
def sizeItems : List Json → Nat
  | [] => 1
  | x :: rest => 1 + sizeJ x + sizeItems rest

/-- Fuel needed by `parseMembers` for the remaining members. -/
def sizeMembers : List (String × Json) → Nat
  | [] => 1
  | kv :: rest => 2 + sizeJ kv.2 + sizeMembers rest

end

/-- What may legally follow a rendered number so that the greedy number
reader stops exactly at its end: nothing, or a character that is neither
a digit nor a point. -/
def numBoundary (rest : List Char) : Prop :=
  ∀ c, rest.head? = some c → (c.isDigit = false ∧ c ≠ '.')

/-! ## Range predicates on the OS answers (for claim C2) -/

/-- A percentage within `[0, 100]`. -/
def percentOk (d : Dec) : Prop := 0 ≤ d.toRat ∧ d.toRat ≤ 100

instance : DecidablePred percentOk := fun d =>
  inferInstanceAs (Decidable (0 ≤ d.toRat ∧ d.toRat ≤ 100))

/-- A rendered number without a minus sign (the meaning of
"non-negative" for the byte fields, which the program stores as
formatted strings). -/
def noMinus (s : String) : Prop := '-' ∉ s.toList

instance : DecidablePred noMinus := fun s =>
  inferInstanceAs (Decidable ('-' ∉ s.toList))

/-- Boolean check that a decimal lies in `[0, 100]`. -/
def decIn01 (d : Dec) : Bool :=
  decide (0 ≤ d.toRat) && decide (d.toRat ≤ 100)

/-- The OS answers for one partition are in range. -/
def diskRangedB (dq : DiskQuery) : Bool :=
  (match dq.usage with
   | some u =>
     decide (0 ≤ u.total) && (decide (0 ≤ u.used) &&
       (decide (0 ≤ u.free) && decIn01 u.percent))
   | none => true) &&
  (match dq.ioq with
   | some (some k) => decide (0 ≤ k.read_bytes) && decide (0 ≤ k.write_bytes)
   | _ => true)

/-- The OS answers for one process are in range. -/
def procRangedB : Option ProcQ → Bool
  | some pq =>
    decIn01 pq.cpu_percent && (decIn01 pq.memory_percent &&
      decide (0 ≤ pq.rss))
  | none => true

/-- Every percentage the OS reported lies in `[0, 100]` and every byte
count it reported is non-negative. -/
def rangedB (i : OSInputs) : Bool :=
  decIn01 i.cpu.usage &&
  (i.cpu.per_cpu.all decIn01 &&
  (decide (0 ≤ i.memory.vtotal) &&
  (decide (0 ≤ i.memory.vused) &&
  (decIn01 i.memory.vpercent &&
  (decide (0 ≤ i.memory.swap_used) &&
  (decide (0 ≤ i.memory.swap_total) &&
  (i.disks.all diskRangedB &&
  (decide (0 ≤ i.network.bytes_sent) &&
  (decide (0 ≤ i.network.bytes_recv) &&
  (decide (0 ≤ i.network.packets_sent) &&
  (decide (0 ≤ i.network.packets_recv) &&
  i.procs.all procRangedB)))))))))))

/-! ## Concrete sample inputs (used to instantiate the theorems) -/

/-- A small but fully populated run of OS answers. -/
def sampleInputs : OSInputs :=
  { now := ⟨2026, 1, 1, 0, 0, 0⟩
    platform := ⟨"Linux", "6.1", "v1", "host1", "127.0.0.1"⟩
    cpu := { freq := none, physical_cores := some 2, logical_cores := some 4
             usage := ⟨125, 1⟩, per_cpu := [⟨100, 1⟩, ⟨150, 1⟩] }
    memory := { vtotal := 1073741824, vused := 536870912
                vpercent := ⟨500, 1⟩, swap_used := 0, swap_total := 1073741824 }
    disks := [{ part := ⟨"/dev/sda1", "/", "ext4"⟩
                usage := some ⟨1000000, 500000, 500000, ⟨500, 1⟩⟩
                ioq := some (some ⟨1048576, 2097152⟩) },
              { part := ⟨"/dev/sdb1", "/mnt/secret", "ext4"⟩
                usage := none, ioq := none }]
    network := { bytes_sent := 1048576, bytes_recv := 2097152
                 packets_sent := 10, packets_recv := 20
                 ifaddrs := [("lo", [⟨.inet, "127.0.0.1", "255.0.0.0"⟩]),
                             ("eth0", [⟨.link, "aa:bb:cc:dd:ee:ff", ""⟩,
                                       ⟨.inet, "10.0.0.2", "255.255.255.0"⟩,
                                       ⟨.inet6, "fe80::1", ""⟩,
                                       ⟨.inet, "10.0.0.3", "255.255.255.0"⟩]),
                             ("down0", [⟨.link, "11:22:33:44:55:66", ""⟩])]
                 ifstats := [("lo", ⟨true, 0, 65536⟩),
                             ("eth0", ⟨true, 1000, 1500⟩)] }
    procs := [some ⟨1, "systemd", ⟨1, 1⟩, ⟨25, 1⟩, 10485760⟩, none,
              some ⟨2, "bash", ⟨5, 1⟩, ⟨25, 1⟩, 5242880⟩]
    users := [⟨"alice", "10.0.0.9", ⟨2026, 1, 1, 9, 30, 5⟩⟩]
    boot := ⟨2025, 12, 31, 23, 0, 0⟩
    sensors := none }

/-- The same run with an out-of-range RAM percentage reported by the OS. -/
def overInputs : OSInputs :=
  { sampleInputs with
    memory := { sampleInputs.memory with vpercent := ⟨150, 0⟩ } }

/-- The snapshot collected from the sample run. -/
def sampleSnap : Snapshot := collect sampleInputs

/-- An interface record with more than two collected addresses. -/
def fullIface : String × IfaceInfo :=
  ("eth0",
   { ip_addresses := ["IPv4: 10.0.0.2/255.255.255.0", "IPv6: fe80::1",
                      "IPv4: 10.0.0.3/255.255.255.0"]
     mac := some "aa:bb:cc:dd:ee:ff"
     stats := some ⟨"UP", "1000 Mbps", 1500⟩ })

/-- An interface record with no IPv4/IPv6 address at all. -/
def bareIface : String × IfaceInfo :=
  ("down0", { ip_addresses := [], mac := some "11:22:33:44:55:66"
              stats := none })

/-! # Theorems -/

theorem natDigitsRevGo_irrel (f1 : Nat) :
    ∀ f2 n, n ≤ f1 → n ≤ f2 → natDigitsRevGo f1 n = natDigitsRevGo f2 n := by
  induction f1 with
  | zero =>
    intro f2 n h1 _
    interval_cases n
    cases f2 <;> rfl
  | succ f ih =>
    intro f2 n h1 h2
    cases n with
    | zero => cases f2 <;> rfl
    | succ m =>
      cases f2 with
      | zero => omega
      | succ g =>
        show (m + 1) % 10 :: natDigitsRevGo f ((m + 1) / 10) =
          (m + 1) % 10 :: natDigitsRevGo g ((m + 1) / 10)
        have hd : (m + 1) / 10 < m + 1 := Nat.div_lt_self (by omega) (by norm_num)
        rw [ih g ((m + 1) / 10) (by omega) (by omega)]

/-- The recursion `natDigitsRev` actually performs. -/
theorem natDigitsRev_eq (n : Nat) :
    natDigitsRev n = if n = 0 then [] else n % 10 :: natDigitsRev (n / 10) := by
  cases n with
  | zero => rfl
  | succ m =>
    show (m + 1) % 10 :: natDigitsRevGo m ((m + 1) / 10) = _
    have hd : (m + 1) / 10 < m + 1 := Nat.div_lt_self (by omega) (by norm_num)
    rw [if_neg (by omega)]
    rw [natDigitsRevGo_irrel m ((m + 1) / 10) ((m + 1) / 10) (by omega) le_rfl]
    rfl

theorem natOfRev_natDigitsRev (n : Nat) : natOfRev (natDigitsRev n) = n := by
  induction n using Nat.strong_induction_on with
  | _ n ih =>
    rw [natDigitsRev_eq]
    split
    · simp [natOfRev]; omega
    · rename_i h
      rw [natOfRev, ih (n / 10) (Nat.div_lt_self (Nat.pos_of_ne_zero h) (by norm_num))]
      omega

theorem natDigitsRev_lt (n : Nat) : ∀ d ∈ natDigitsRev n, d < 10 := by
  induction n using Nat.strong_induction_on with
  | _ n ih =>
    rw [natDigitsRev_eq]
    split
    · simp
    · rename_i h
      intro d hd
      rcases List.mem_cons.mp hd with h1 | h1
      · omega
      · exact ih (n / 10) (Nat.div_lt_self (Nat.pos_of_ne_zero h) (by norm_num)) d h1


/-! Stability of the insertion sort used above: filtering the sorted list
down to one key value gives exactly the same subsequence as filtering the
input. -/

theorem filter_orderedInsert_of_key (key : ProcInfo → ℚ) (q : ℚ) (x : ProcInfo)
    (hx : key x = q) (l : List ProcInfo)
    (hkey : ∀ a b, procGE a b ↔ key b ≤ key a) :
    (l.orderedInsert procGE x).filter (fun y => decide (key y = q)) =
      x :: l.filter (fun y => decide (key y = q)) := by
  induction l with
  | nil => simp [List.orderedInsert, hx]
  | cons y ys ih =>
    rw [List.orderedInsert]
    split
    · simp [hx]
    · rename_i hnot
      have hylt : key x < key y := by
        have := (hkey x y).not
        rw [not_le] at this
        exact this.mp hnot
      have hy : ¬ (key y = q) := by
        rw [← hx]; exact fun h => absurd h.symm (ne_of_lt hylt)
      have hpy : ¬ (decide (key y = q) = true) := by simpa using hy
      rw [List.filter_cons, List.filter_cons, if_neg hpy, if_neg hpy]
      exact ih

theorem filter_orderedInsert_of_ne (key : ProcInfo → ℚ) (q : ℚ) (x : ProcInfo)
    (hx : key x ≠ q) (l : List ProcInfo) :
    (l.orderedInsert procGE x).filter (fun y => decide (key y = q)) =
      l.filter (fun y => decide (key y = q)) := by
  induction l with
  | nil => simp [List.orderedInsert, hx]
  | cons y ys ih =>
    rw [List.orderedInsert]
    split
    · simp only [List.filter_cons, decide_eq_true_eq]
      rw [if_neg (by simpa using hx)]
    · simp only [List.filter_cons]
      rw [ih]

theorem filter_insertionSort_key (key : ProcInfo → ℚ) (q : ℚ)
    (hkey : ∀ a b, procGE a b ↔ key b ≤ key a) (l : List ProcInfo) :
    (l.insertionSort procGE).filter (fun y => decide (key y = q)) =
      l.filter (fun y => decide (key y = q)) := by
  induction l with
  | nil => rfl
  | cons x xs ih =>
    rw [List.insertionSort]
    by_cases hx : key x = q
    · rw [filter_orderedInsert_of_key key q x hx _ hkey, ih]
      simp [List.filter_cons, hx]
    · rw [filter_orderedInsert_of_ne key q x hx, ih]
      simp [List.filter_cons, hx]

/-- C1: length bound, descending order, stability of the process list. -/
theorem processesCollect_spec (qs : List ProcQuery) :
    (processesCollect qs).length ≤ 8 ∧
      List.Sorted procGE (processesCollect qs) ∧
      ∀ q : ℚ,
        List.Sublist
          ((processesCollect qs).filter
            (fun p => decide (p.memory_percent.toRat = q)))
          (((qs.filterMap id).map mkProcInfo).filter
            (fun p => decide (p.memory_percent.toRat = q))) := by
  refine ⟨?_, ?_, ?_⟩
  · simp only [processesCollect, List.length_take]
    omega
  · exact ((List.sorted_insertionSort procGE _).sublist (List.take_sublist _ _))
  · intro q
    have h1 : List.Sublist
        ((processesCollect qs).filter
          (fun p => decide (p.memory_percent.toRat = q)))
        ((((qs.filterMap id).map mkProcInfo).insertionSort procGE).filter
          (fun p => decide (p.memory_percent.toRat = q))) :=
      (List.take_sublist _ _).filter _
    rw [filter_insertionSort_key (fun p => p.memory_percent.toRat) q
      (fun _ _ => Iff.rfl)] at h1
    exact h1


/-! ## C3: the sensor collector -/

/-- C3: with sensor support unavailable the collector returns the
placeholder, which is never an (empty or other) readings mapping; with
support available every group keeps at most two readings, each reduced to
its current value. -/
theorem sensorsCollect_spec :
    sensorsCollect none = SensorsField.placeholder ∧
    (∀ m, SensorsField.placeholder ≠ SensorsField.readings m) ∧
    ∀ temps, ∃ m, sensorsCollect (some temps) = SensorsField.readings m ∧
      List.Forall₂
        (fun (g : String × List Dec) (t : String × List SensorEntry) =>
          g.1 = t.1 ∧ g.2 = (t.2.take 2).map (fun s => s.current) ∧
            g.2.length ≤ 2)
        m temps := by
  refine ⟨rfl, fun m h => SensorsField.noConfusion h, fun temps => ⟨_, rfl, ?_⟩⟩
  rw [List.forall₂_map_left_iff]
  rw [List.forall₂_same]
  intro t _
  refine ⟨rfl, rfl, ?_⟩
  simp only [List.length_map, List.length_take]
  omega

/-! ## C4: the disk collector skips inaccessible partitions -/

theorem mkDiskInfo_device (dq : DiskQuery) (u : UsageInfo) :
    (mkDiskInfo dq u).device = dq.part.device := rfl

theorem disksCollect_eq_filterMap (qs : List DiskQuery) :
    disksCollect qs = qs.filterMap (fun dq => dq.usage.map (mkDiskInfo dq)) := by
  induction qs with
  | nil => rfl
  | cons dq rest ih =>
    rw [disksCollect, List.filterMap_cons]
    cases h : dq.usage with
    | none => simpa [h] using ih
    | some u => simp [h, ih]

/-- C4: the disk list is exactly the accessible partitions in order; an
inaccessible partition contributes nothing (and, when no accessible
partition shares its device name, its device is absent from the output),
every accessible partition contributes its record, and the collector
never aborts (its length is the number of accessible partitions). -/
theorem disksCollect_spec (qs : List DiskQuery) :
    disksCollect qs = qs.filterMap (fun dq => dq.usage.map (mkDiskInfo dq)) ∧
    (disksCollect qs).length =
      (qs.filter (fun dq => dq.usage.isSome)).length ∧
    (∀ dq ∈ qs, ∀ u, dq.usage = some u → mkDiskInfo dq u ∈ disksCollect qs) ∧
    (∀ dq ∈ qs, dq.usage = none →
      (∀ q2 ∈ qs, q2.part.device = dq.part.device → q2.usage = none) →
      dq.part.device ∉ (disksCollect qs).map (fun d => d.device)) := by
  refine ⟨disksCollect_eq_filterMap qs, ?_, ?_, ?_⟩
  · rw [disksCollect_eq_filterMap]
    induction qs with
    | nil => rfl
    | cons dq rest ih =>
      rw [List.filterMap_cons, List.filter_cons]
      cases h : dq.usage with
      | none => simpa [h] using ih
      | some u => simpa [h] using ih
  · intro dq hdq u hu
    rw [disksCollect_eq_filterMap]
    exact List.mem_filterMap.mpr ⟨dq, hdq, by rw [hu]; rfl⟩
  · intro dq _ _ hall hmem
    rcases List.mem_map.mp hmem with ⟨d, hd, hdev⟩
    rw [disksCollect_eq_filterMap] at hd
    rcases List.mem_filterMap.mp hd with ⟨q2, hq2, hq2d⟩
    rcases Option.map_eq_some.mp hq2d with ⟨u2, hu2, hmk⟩
    have : q2.part.device = dq.part.device := by
      rw [← hdev, ← hmk, mkDiskInfo_device]
    rw [hall q2 hq2 this] at hu2
    exact Option.noConfusion hu2


/-- Witness for C4 at the sample run: the accessible partition's record
is present, the device of the partition whose usage lookup raised is
absent. -/
theorem disksCollect_spec_witness :
    (mkDiskInfo
        { part := ⟨"/dev/sda1", "/", "ext4"⟩
          usage := some ⟨1000000, 500000, 500000, ⟨500, 1⟩⟩
          ioq := some (some ⟨1048576, 2097152⟩) }
        ⟨1000000, 500000, 500000, ⟨500, 1⟩⟩ ∈
      disksCollect sampleInputs.disks) ∧
    "/dev/sdb1" ∉ (disksCollect sampleInputs.disks).map (fun d => d.device) :=
  ⟨(disksCollect_spec sampleInputs.disks).2.2.1 _ (by decide) _ rfl,
   (disksCollect_spec sampleInputs.disks).2.2.2
     { part := ⟨"/dev/sdb1", "/mnt/secret", "ext4"⟩, usage := none
       ioq := none }
     (by decide) rfl (by decide)⟩

/-! ## C5: both renderers are deterministic pure functions -/

/-- C5: the renderers are (pure) functions of the snapshot value, so
rendering the same snapshot twice — with either renderer — yields
identical strings. -/
theorem renderers_deterministic (s : Snapshot) :
    text_report s = text_report s ∧ json_report s = json_report s :=
  ⟨rfl, rfl⟩

/-! ## C7: the active-users section -/

/-- C7: with no active sessions the text report has no users section at
all; with at least one session the section appears between the process
table and the boot-time line, one line per session in the form
`name с host (с HH:MM:SS)`. -/
theorem text_report_users_section (s : Snapshot) :
    (s.users = [] → textReportLines s = preUsersLines s ++ postUsersLines s) ∧
    (s.users ≠ [] →
      textReportLines s =
        preUsersLines s ++
          (["\nАКТИВНЫЕ ПОЛЬЗОВАТЕЛИ:", sepDash] ++
            s.users.map (fun u =>
              u.name ++ " с " ++ u.host ++ " (с " ++ u.started ++ ")")) ++
          postUsersLines s) := by
  constructor
  · intro h
    simp [textReportLines, preUsersLines, postUsersLines, h]
  · intro h
    simp [textReportLines, preUsersLines, postUsersLines, h, userLine]

/-- Witness for C7 at the sample snapshot (one active session). -/
theorem text_report_users_section_witness :
    sampleSnap.users ≠ [] ∧
    textReportLines sampleSnap =
      preUsersLines sampleSnap ++
        (["\nАКТИВНЫЕ ПОЛЬЗОВАТЕЛИ:", sepDash] ++
          sampleSnap.users.map (fun u =>
            u.name ++ " с " ++ u.host ++ " (с " ++ u.started ++ ")")) ++
        postUsersLines sampleSnap :=
  ⟨by decide, (text_report_users_section sampleSnap).2 (by decide)⟩

/-! ## C8: printing and persisting in `main` -/

/-- C8 (amended): the report is printed exactly when `--print` is set,
and persisted exactly when `--output` is truthy (given and non-empty) or
`--print` was not set; a bare invocation always writes a file. -/
theorem mainRun_spec (args : Args) (i : OSInputs) (t : Tm) :
    ((mainRun args i t).printed.isSome = true ↔ args.print = true) ∧
    ((mainRun args i t).saved.isSome = true ↔
      (pyTruthy args.output = true ∨ args.print = false)) ∧
    (mainRun { format := args.format, output := none, print := false } i t).saved.isSome
      = true := by
  refine ⟨?_, ?_, ?_⟩
  · cases hp : args.print <;> simp [mainRun, hp]
  · cases hp : args.print <;> cases ho : pyTruthy args.output <;>
      simp [mainRun, hp, ho]
  · simp [mainRun, pyTruthy]

/-- Counterexample to C8 as stated: with `--print` set and
`--output ""` supplied (so `--output` IS given), nothing is persisted,
because the empty string is falsy in `args.output or not args.print`. -/
theorem mainRun_output_empty_counterexample :
    (mainRun ⟨"text", some "", true⟩ sampleInputs ⟨2026, 1, 1, 0, 0, 5⟩).saved
      = none ∧
    (some "" : Option String) ≠ none := by
  constructor
  · simp [mainRun, pyTruthy]
  · simp

/-! ## C9: the default file name -/

/-- C9 (amended): when no file name is supplied, the name is the
`system_report_` stamp of the time at which `save` runs (not the
snapshot's capture time), followed by `.json` for the json format and
`.txt` otherwise. -/
theorem saveFname_spec (fmt : String) (t : Tm) :
    saveFname fmt none t =
      ("system_report_" ++ t.fmtCompact) ++
        (if fmt = "json" then ".json" else ".txt") ∧
    (fmt = "json" →
      List.IsSuffix ".json".toList ((saveFname fmt none t).toList)) ∧
    (fmt ≠ "json" →
      List.IsSuffix ".txt".toList ((saveFname fmt none t).toList)) := by
  refine ⟨rfl, ?_, ?_⟩
  · intro h
    refine ⟨("system_report_" ++ t.fmtCompact).toList, ?_⟩
    simp [saveFname, h]
  · intro h
    refine ⟨("system_report_" ++ t.fmtCompact).toList, ?_⟩
    simp [saveFname, h]

/-- Witness for C9 at both formats and a concrete time. -/
theorem saveFname_spec_witness :
    List.IsSuffix ".json".toList
      ((saveFname "json" none ⟨2026, 1, 1, 0, 0, 5⟩).toList) ∧
    List.IsSuffix ".txt".toList
      ((saveFname "text" none ⟨2026, 1, 1, 0, 0, 5⟩).toList) :=
  ⟨(saveFname_spec "json" ⟨2026, 1, 1, 0, 0, 5⟩).2.1 rfl,
   (saveFname_spec "text" ⟨2026, 1, 1, 0, 0, 5⟩).2.2 (by decide)⟩

/-- Counterexample to C9 as stated: the default file name is stamped with
the time at which `save` runs, not the snapshot's capture time.  Here the
snapshot was captured at 2026-01-01 00:00:00 but saved five seconds
later; neither rendering of the capture time occurs in the file name. -/
theorem save_capture_time_counterexample :
    (collect sampleInputs).time = "2026-01-01 00:00:00" ∧
    sampleInputs.now.fmtCompact = "20260101_000000" ∧
    (mainRun ⟨"text", none, false⟩ sampleInputs ⟨2026, 1, 1, 0, 0, 5⟩).saved =
      some ("system_report_20260101_000005.txt",
        text_report (collect sampleInputs)) ∧
    ¬ List.IsInfix "20260101_000000".toList
        "system_report_20260101_000005.txt".toList ∧
    ¬ List.IsInfix "2026-01-01 00:00:00".toList
        "system_report_20260101_000005.txt".toList := by
  refine ⟨by decide, by decide, ?_, by decide, by decide⟩
  simp only [mainRun, pyTruthy, saveResult]
  norm_num
  constructor
  · decide
  · intro h
    exact absurd h (by decide)

/-! ## C10: the network section of the text report -/

/-- The number of collected addresses of an interface equals the number
of IPv4/IPv6 entries the OS reported for it. -/
theorem length_filterMap_classifyAddr (l : List AddrEntry) :
    (l.filterMap classifyAddr).length =
      (l.filter (fun a =>
        decide (a.family = AddrFamily.inet) ||
          decide (a.family = AddrFamily.inet6))).length := by
  induction l with
  | nil => rfl
  | cons a rest ih =>
    rw [List.filterMap_cons, List.filter_cons]
    cases h : a.family <;>
      simp [classifyAddr, h, ih]

/-- C10: an interface with an empty collected address list contributes
no lines to the text report; one with addresses contributes a header,
the optional MAC line, only the first two addresses, and the optional
status line — while the snapshot itself retains one collected address
per IPv4/IPv6 entry the OS reported. -/
theorem network_section_spec (p : String × IfaceInfo) (nq : NetQuery) :
    (p.2.ip_addresses = [] → ifaceBlockLines p = []) ∧
    (p.2.ip_addresses ≠ [] →
      ifaceBlockLines p =
        ["\n" ++ p.1 ++ ":"] ++
        (match p.2.mac with
         | some m => if m = "" then [] else ["  MAC: " ++ m]
         | none => []) ++
        (p.2.ip_addresses.take 2).map (fun ip => "  " ++ ip) ++
        (match p.2.stats with
         | some st =>
           ["  Статус: " ++ st.is_up ++ ", Скорость: " ++ st.speed]
         | none => [])) ∧
    List.Forall₂
      (fun (out : String × IfaceInfo) (inp : String × List AddrEntry) =>
        out.1 = inp.1 ∧
        out.2.ip_addresses.length =
          (inp.2.filter (fun a =>
            decide (a.family = AddrFamily.inet) ||
              decide (a.family = AddrFamily.inet6))).length)
      (networkCollect nq).interfaces nq.ifaddrs := by
  refine ⟨fun h => by simp [ifaceBlockLines, h], fun h => by
    simp [ifaceBlockLines, h], ?_⟩
  show List.Forall₂ _ (nq.ifaddrs.map (ifaceCollect nq.ifstats)) nq.ifaddrs
  rw [List.forall₂_map_left_iff, List.forall₂_same]
  intro inp _
  exact ⟨rfl, length_filterMap_classifyAddr inp.2⟩

/-- Witness for C10: a bare interface prints nothing, a three-address
interface prints exactly its first two addresses. -/
theorem network_section_spec_witness :
    ifaceBlockLines bareIface = [] ∧
    ifaceBlockLines fullIface =
      ["\n" ++ fullIface.1 ++ ":"] ++
      (match fullIface.2.mac with
       | some m => if m = "" then [] else ["  MAC: " ++ m]
       | none => []) ++
      (fullIface.2.ip_addresses.take 2).map (fun ip => "  " ++ ip) ++
      (match fullIface.2.stats with
       | some st =>
         ["  Статус: " ++ st.is_up ++ ", Скорость: " ++ st.speed]
       | none => []) :=
  ⟨(network_section_spec bareIface sampleInputs.network).1 rfl,
   (network_section_spec fullIface sampleInputs.network).2.1 (by decide)⟩

/-! ## C2: range invariants of the snapshot -/

theorem Dec.toRat_eq (d : Dec) : d.toRat = (d.m : ℚ) / (10 : ℚ) ^ d.e := by
  unfold Dec.toRat
  rw [Rat.mkRat_eq_div]
  push_cast
  ring

theorem strToList_append (a b : String) :
    (a ++ b).toList = a.toList ++ b.toList := by
  simp

theorem digitChar_isDigit (d : Nat) (h : d < 10) :
    (digitChar d).isDigit = true := by
  interval_cases d <;> decide

theorem isDigit_of_mem_natDecChars (n : Nat) :
    ∀ c ∈ natDecChars n, c.isDigit = true := by
  intro c hc
  unfold natDecChars at hc
  split at hc
  · rcases List.mem_singleton.mp hc with rfl
    decide
  · rw [List.mem_reverse, List.mem_map] at hc
    rcases hc with ⟨d, hd, rfl⟩
    exact digitChar_isDigit d (natDigitsRev_lt n d hd)

theorem noMinus_natDecStr (n : Nat) : noMinus (natDecStr n) := by
  intro hmem
  have h2 := isDigit_of_mem_natDecChars n _ hmem
  exact absurd h2 (by decide)

theorem noMinus_append (a b : String) (ha : noMinus a) (hb : noMinus b) :
    noMinus (a ++ b) := by
  unfold noMinus at *
  rw [strToList_append]
  intro hmem
  rcases List.mem_append.mp hmem with h | h
  · exact ha h
  · exact hb h

theorem fmt1f_noMinus (q : ℚ) (h : 0 ≤ q) : noMinus (fmt1f q) := by
  simp only [fmt1f]
  have hn : (0 : ℤ) ≤ ⌊q * 10 + 1 / 2⌋ := Int.floor_nonneg.mpr (by positivity)
  rw [if_neg (not_lt.mpr hn)]
  refine noMinus_append _ _ (noMinus_append _ _ (noMinus_append _ _ ?_ ?_) ?_) ?_
  · intro hmem
    simp at hmem
  · exact noMinus_natDecStr _
  · intro hmem
    exact absurd hmem (by decide)
  · exact noMinus_natDecStr _

/-- The GiB / MiB rendering of a non-negative byte count carries no
minus sign. -/
theorem fmtBytes_noMinus (v : Int) (k : Nat) (h : 0 ≤ v) (u : String)
    (hu : noMinus u) : noMinus (fmt1f ((v : ℚ) / 2 ^ k) ++ u) := by
  refine noMinus_append _ _ (fmt1f_noMinus _ ?_) hu
  have : (0 : ℚ) ≤ (v : ℚ) := by exact_mod_cast h
  positivity

/-- C2 (amended): the collectors pass percentages and byte counts
through unchanged (percentages verbatim, byte counts into fixed-point
strings), so whenever every OS-reported percentage lies in `[0, 100]`
and every OS-reported byte count is non-negative, so does every
percentage and every rendered byte/size field of the snapshot. -/
theorem collect_ranged (i : OSInputs) (h : rangedB i = true) :
    percentOk (collect i).cpu.usage ∧
    (∀ d ∈ (collect i).cpu.per_cpu, percentOk d) ∧
    percentOk (collect i).memory.ram_percent ∧
    noMinus (collect i).memory.total_ram ∧
    noMinus (collect i).memory.used_ram ∧
    noMinus (collect i).memory.swap ∧
    (∀ d ∈ (collect i).disks,
      percentOk d.percent ∧ noMinus d.total ∧ noMinus d.used ∧
        noMinus d.free ∧ ∀ rw2 ∈ d.readWrite, noMinus rw2.1 ∧ noMinus rw2.2) ∧
    noMinus (collect i).network.bytes_sent ∧
    noMinus (collect i).network.bytes_recv ∧
    0 ≤ (collect i).network.packets_sent ∧
    0 ≤ (collect i).network.packets_recv ∧
    (∀ p ∈ (collect i).processes,
      percentOk p.cpu_percent ∧ percentOk p.memory_percent ∧
        0 ≤ p.memory_mb.toRat) := by
  simp only [rangedB, Bool.and_eq_true, List.all_eq_true, decIn01,
    decide_eq_true_eq] at h
  obtain ⟨hcpu, hper, hvt, hvu, hvp, hsu, hst, hdisks, hbs, hbr, hps, hpr,
    hprocs⟩ := h
  refine ⟨hcpu, ?_, hvp, ?_, ?_, ?_, ?_, ?_, ?_, hps, hpr, ?_⟩
  · intro d hd
    exact hper d hd
  · exact fmtBytes_noMinus _ 30 hvt _ (by decide)
  · exact fmtBytes_noMinus _ 30 hvu _ (by decide)
  · show noMinus ((fmt1f _ ++ "/" ++ fmt1f _) ++ " GB")
    refine noMinus_append _ _ (noMinus_append _ _ ?_ ?_) (by decide)
    · refine noMinus_append _ _ (fmt1f_noMinus _ ?_) (by decide)
      have : (0 : ℚ) ≤ (i.memory.swap_used : ℚ) := by exact_mod_cast hsu
      positivity
    · refine fmt1f_noMinus _ ?_
      have : (0 : ℚ) ≤ (i.memory.swap_total : ℚ) := by exact_mod_cast hst
      positivity
  · intro d hd
    have hd2 : d ∈ disksCollect i.disks := hd
    rw [disksCollect_eq_filterMap] at hd2
    rcases List.mem_filterMap.mp hd2 with ⟨dq, hdq, hmap⟩
    rcases Option.map_eq_some.mp hmap with ⟨u, husage, rfl⟩
    have hall := hdisks dq hdq
    rw [diskRangedB, Bool.and_eq_true, husage] at hall
    obtain ⟨hu1, hio⟩ := hall
    simp only [Bool.and_eq_true, decIn01, decide_eq_true_eq] at hu1
    obtain ⟨ht, hus, hf, hp0, hp1⟩ := hu1
    refine ⟨⟨hp0, hp1⟩, fmtBytes_noMinus _ 30 ht _ (by decide),
      fmtBytes_noMinus _ 30 hus _ (by decide),
      fmtBytes_noMinus _ 30 hf _ (by decide), ?_⟩
    intro rw2 hrw
    unfold mkDiskInfo at hrw
    cases hioq : dq.ioq with
    | none =>
      rw [hioq] at hrw
      simp at hrw
    | some oi =>
      cases oi with
      | none =>
        rw [hioq] at hrw
        simp at hrw
      | some k =>
        rw [hioq] at hrw
        simp only [Option.mem_def, Option.some_inj] at hrw
        rw [hioq] at hio
        simp only [Bool.and_eq_true, decide_eq_true_eq] at hio
        subst hrw
        exact ⟨fmtBytes_noMinus _ 20 hio.1 _ (by decide),
          fmtBytes_noMinus _ 20 hio.2 _ (by decide)⟩
  · exact fmtBytes_noMinus _ 20 hbs _ (by decide)
  · exact fmtBytes_noMinus _ 20 hbr _ (by decide)
  · intro p hp
    have hp2 : p ∈ ((i.procs.filterMap id).map mkProcInfo).insertionSort procGE :=
      (List.take_sublist _ _).mem hp
    rw [List.mem_insertionSort] at hp2
    rcases List.mem_map.mp hp2 with ⟨pq, hpq, rfl⟩
    rcases List.mem_filterMap.mp hpq with ⟨o, ho, hid⟩
    have hop : o = some pq := hid
    subst hop
    have hall := hprocs _ ho
    simp only [procRangedB, Bool.and_eq_true, decIn01, decide_eq_true_eq]
      at hall
    obtain ⟨⟨hc0, hc1⟩, ⟨hm0, hm1⟩, hrss⟩ := hall
    refine ⟨⟨hc0, hc1⟩, ⟨hm0, hm1⟩, ?_⟩
    show (0 : ℚ) ≤ Dec.toRat ⟨pq.rss * 5 ^ 20, 20⟩
    rw [Dec.toRat_eq]
    have : (0 : ℚ) ≤ ((pq.rss * 5 ^ 20 : Int) : ℚ) := by
      have : (0 : Int) ≤ pq.rss * 5 ^ 20 := by positivity
      exact_mod_cast this
    positivity

/-- Witness for C2: the sample OS answers are in range, and the theorem
applies to them. -/
theorem collect_ranged_witness :
    rangedB sampleInputs = true ∧
    percentOk (collect sampleInputs).cpu.usage :=
  ⟨by decide, (collect_ranged sampleInputs (by decide)).1⟩

/-- Counterexample to C2 as stated: the collectors do not validate the
OS answers, so a run in which the OS reports a RAM percentage of 150
yields a snapshot whose percentage field is 150, outside `[0, 100]`. -/
theorem collect_percent_counterexample :
    ¬ ((collect overInputs).memory.ram_percent.toRat ≤ 100) := by
  decide

/-! ## C6: serialisation loses no data.  Digit and whitespace lemmas. -/

theorem skipWs_append_ws (l r : List Char) (h : ∀ c ∈ l, isWs c = true) :
    skipWs (l ++ r) = skipWs r := by
  induction l with
  | nil => rfl
  | cons c cs ih =>
    show skipWs (c :: (cs ++ r)) = _
    unfold skipWs
    rw [List.dropWhile_cons_of_pos (h c (by simp))]
    exact ih (fun c2 hc2 => h c2 (by simp [hc2]))

theorem skipWs_cons_not (c : Char) (cs : List Char) (h : isWs c = false) :
    skipWs (c :: cs) = c :: cs := by
  unfold skipWs
  rw [List.dropWhile_cons_of_neg (by simp [h])]

theorem indentChars_ws (d : Nat) : ∀ c ∈ indentChars d, isWs c = true := by
  intro c hc
  rw [indentChars, List.mem_replicate] at hc
  rw [hc.2]
  decide

theorem digitChar_val (d : Nat) (h : d < 10) : (digitChar d).toNat - 48 = d := by
  interval_cases d <;> decide

/-- Every character class fact needed about a decimal digit at once. -/
theorem digitFacts (c : Char) (h : c.isDigit = true) :
    isWs c = false ∧ c ≠ 'n' ∧ c ≠ '"' ∧ c ≠ '[' ∧ c ≠ '\x7b' ∧
      c ≠ ']' ∧ c ≠ '\x7d' ∧ c ≠ ',' ∧ c ≠ ':' ∧ c ≠ '-' ∧ c ≠ '.' := by
  have h1 : c ≠ ' ' := by rintro rfl; exact absurd h (by decide)
  have h2 : c ≠ '\n' := by rintro rfl; exact absurd h (by decide)
  have h3 : c ≠ '\t' := by rintro rfl; exact absurd h (by decide)
  have h4 : c ≠ '\r' := by rintro rfl; exact absurd h (by decide)
  refine ⟨by simp [isWs, h1, h2, h3, h4], ?_, ?_, ?_, ?_, ?_, ?_, ?_, ?_,
    ?_, ?_⟩ <;>
    (rintro rfl; exact absurd h (by decide))

theorem natDecChars_ne_nil (n : Nat) : natDecChars n ≠ [] := by
  unfold natDecChars
  split
  · simp
  · rename_i h
    intro hnil
    rw [List.reverse_eq_nil_iff, List.map_eq_nil_iff] at hnil
    have := natOfRev_natDigitsRev n
    rw [hnil] at this
    exact h (by simpa [natOfRev] using this.symm)

theorem digitsVal_foldl (l : List Char) (a : Nat) :
    l.foldl (fun a c => 10 * a + (c.toNat - 48)) a =
      a * 10 ^ l.length + digitsVal l := by
  induction l generalizing a with
  | nil => simp [digitsVal]
  | cons c cs ih =>
    show List.foldl _ (10 * a + (c.toNat - 48)) cs = _
    rw [ih]
    have h2 : digitsVal (c :: cs) =
        (c.toNat - 48) * 10 ^ cs.length + digitsVal cs := by
      show List.foldl _ (10 * 0 + (c.toNat - 48)) cs = _
      rw [ih (10 * 0 + (c.toNat - 48))]
      ring
    rw [h2, List.length_cons]
    ring

theorem digitsVal_append (a b : List Char) :
    digitsVal (a ++ b) = digitsVal a * 10 ^ b.length + digitsVal b := by
  unfold digitsVal
  rw [List.foldl_append]
  rw [digitsVal_foldl]
  rfl

theorem digitsVal_replicate_zero (k : Nat) (l : List Char) :
    digitsVal (List.replicate k '0' ++ l) = digitsVal l := by
  rw [digitsVal_append]
  have : digitsVal (List.replicate k '0') = 0 := by
    induction k with
    | zero => rfl
    | succ m ih =>
      rw [List.replicate_succ]
      unfold digitsVal at ih ⊢
      show List.foldl _ (10 * 0 + ('0'.toNat - 48)) _ = 0
      simpa using ih
  rw [this]
  ring

theorem digitsVal_revDigits (rev : List Nat) (h : ∀ d ∈ rev, d < 10) :
    digitsVal ((rev.map digitChar).reverse) = natOfRev rev := by
  induction rev with
  | nil => rfl
  | cons d ds ih =>
    rw [List.map_cons, List.reverse_cons, digitsVal_append]
    rw [ih (fun x hx => h x (by simp [hx]))]
    have hd : digitsVal [digitChar d] = d := by
      show 10 * 0 + ((digitChar d).toNat - 48) = d
      rw [digitChar_val d (h d (by simp))]
      omega
    rw [hd]
    show natOfRev ds * 10 ^ 1 + d = d + 10 * natOfRev ds
    ring

theorem digitsVal_natDecChars (n : Nat) : digitsVal (natDecChars n) = n := by
  unfold natDecChars
  split
  · rename_i h
    rw [h]
    rfl
  · rw [digitsVal_revDigits _ (natDigitsRev_lt n), natOfRev_natDigitsRev]

theorem takeWhile_all_append (p : Char → Bool) (l r : List Char)
    (hl : ∀ c ∈ l, p c = true)
    (hr : ∀ c, r.head? = some c → p c = false) :
    (l ++ r).takeWhile p = l ∧ (l ++ r).dropWhile p = r := by
  induction l with
  | nil =>
    cases r with
    | nil => exact ⟨rfl, rfl⟩
    | cons c cs =>
      constructor
      · show List.takeWhile p (c :: cs) = []
        rw [List.takeWhile_cons_of_neg (by simp [hr c rfl])]
      · show List.dropWhile p (c :: cs) = c :: cs
        rw [List.dropWhile_cons_of_neg (by simp [hr c rfl])]
  | cons c cs ih =>
    have hc : p c = true := hl c (by simp)
    obtain ⟨ih1, ih2⟩ := ih (fun x hx => hl x (by simp [hx]))
    constructor
    · show List.takeWhile p (c :: (cs ++ r)) = c :: cs
      rw [List.takeWhile_cons_of_pos hc, ih1]
    · show List.dropWhile p (c :: (cs ++ r)) = r
      rw [List.dropWhile_cons_of_pos hc, ih2]

theorem leftpad_digits (n k : Nat) :
    ∀ c ∈ (natDecChars n).leftpad k (digitChar 0), c.isDigit = true := by
  intro c hc
  rw [show (natDecChars n).leftpad k (digitChar 0) =
    List.replicate (k - (natDecChars n).length) (digitChar 0) ++
      natDecChars n from rfl] at hc
  rcases List.mem_append.mp hc with h | h
  · rw [List.eq_of_mem_replicate h]
    decide
  · exact isDigit_of_mem_natDecChars n c h

theorem digitsVal_leftpad (n k : Nat) :
    digitsVal ((natDecChars n).leftpad k (digitChar 0)) = n := by
  rw [show (natDecChars n).leftpad k (digitChar 0) =
    List.replicate (k - (natDecChars n).length) (digitChar 0) ++
      natDecChars n from rfl]
  rw [show digitChar 0 = '0' from by decide]
  rw [digitsVal_replicate_zero, digitsVal_natDecChars]

/-- `parseNum` on a digit block (optionally signed) with no following
point. -/
theorem parseNum_int (ds rest : List Char)
    (hds : ∀ c ∈ ds, c.isDigit = true) (hne : ds ≠ [])
    (hb : numBoundary rest) :
    parseNum (ds ++ rest) =
      some (.num ⟨(digitsVal ds : Int), 0⟩, rest) ∧
    parseNum ('-' :: (ds ++ rest)) =
      some (.num ⟨-(digitsVal ds : Int), 0⟩, rest) := by
  obtain ⟨d0, dtl, hcons⟩ : ∃ d0 dtl, ds = d0 :: dtl := by
    cases hd : ds with
    | nil => exact absurd hd hne
    | cons a b => exact ⟨a, b, rfl⟩
  have hd0 : d0.isDigit = true := hds d0 (by rw [hcons]; simp)
  have hd0m : d0 ≠ '-' := (digitFacts d0 hd0).2.2.2.2.2.2.2.2.2.1
  have hhead : (ds ++ rest).head? = some d0 := by rw [hcons]; rfl
  have hneg : decide ((ds ++ rest).head? = some '-') = false := by
    rw [hhead]
    simp [hd0m]
  have hnegm : decide (('-' :: (ds ++ rest)).head? = some '-') = true := by
    simp
  have hsplit := takeWhile_all_append Char.isDigit ds rest hds
    (fun c hc => (hb c hc).1)
  have hemp : ds.isEmpty = false := by
    rw [hcons]
    rfl
  have hrestdot : ¬ (rest.head? = some '.') := by
    intro hdot
    exact absurd rfl (hb _ hdot).2
  constructor
  · unfold parseNum
    rw [hneg]
    simp only [Bool.false_eq_true, if_false, hsplit.1, hsplit.2, hemp]
    rw [if_neg hrestdot]
    simp
  · unfold parseNum
    rw [hnegm]
    simp only [if_true, List.tail_cons, hsplit.1, hsplit.2, hemp]
    rw [if_neg hrestdot]
    simp

/-- `parseNum` on a digit block, a point, and a fraction block. -/
theorem parseNum_frac (ds fs rest : List Char)
    (hds : ∀ c ∈ ds, c.isDigit = true) (hne : ds ≠ [])
    (hfs : ∀ c ∈ fs, c.isDigit = true) (hfne : fs ≠ [])
    (hb : numBoundary rest) :
    parseNum (ds ++ '.' :: (fs ++ rest)) =
      some (.num ⟨(digitsVal (ds ++ fs) : Int), fs.length⟩, rest) ∧
    parseNum ('-' :: (ds ++ '.' :: (fs ++ rest))) =
      some (.num ⟨-(digitsVal (ds ++ fs) : Int), fs.length⟩, rest) := by
  obtain ⟨d0, dtl, hcons⟩ : ∃ d0 dtl, ds = d0 :: dtl := by
    cases hd : ds with
    | nil => exact absurd hd hne
    | cons a b => exact ⟨a, b, rfl⟩
  have hd0 : d0.isDigit = true := hds d0 (by rw [hcons]; simp)
  have hd0m : d0 ≠ '-' := (digitFacts d0 hd0).2.2.2.2.2.2.2.2.2.1
  have hhead : (ds ++ '.' :: (fs ++ rest)).head? = some d0 := by
    rw [hcons]
    rfl
  have hneg : decide ((ds ++ '.' :: (fs ++ rest)).head? = some '-') = false := by
    rw [hhead]
    simp [hd0m]
  have hnegm :
      decide (('-' :: (ds ++ '.' :: (fs ++ rest))).head? = some '-') = true := by
    simp
  have hsplit1 := takeWhile_all_append Char.isDigit ds ('.' :: (fs ++ rest)) hds
    (by intro c hc; rw [List.head?_cons, Option.some.injEq] at hc; rw [← hc]; decide)
  have hsplit2 := takeWhile_all_append Char.isDigit fs rest hfs
    (fun c hc => (hb c hc).1)
  have hemp : ds.isEmpty = false := by
    rw [hcons]
    rfl
  have hfemp : fs.isEmpty = false := by
    cases hf : fs with
    | nil => exact absurd hf hfne
    | cons a b => rfl
  constructor
  · unfold parseNum
    rw [hneg]
    simp only [Bool.false_eq_true, if_false, hsplit1.1, hsplit1.2, hemp]
    rw [if_pos (by rw [List.head?_cons])]
    simp only [List.tail_cons, hsplit2.1, hsplit2.2, hfemp,
      Bool.false_eq_true, if_false]
    simp [digitsVal_append]
  · unfold parseNum
    rw [hnegm]
    simp only [if_true, List.tail_cons, Bool.false_eq_true, if_false,
      hsplit1.1, hsplit1.2, hemp]
    rw [if_pos (by rw [List.head?_cons])]
    simp only [List.tail_cons, hsplit2.1, hsplit2.2, hfemp,
      Bool.false_eq_true, if_false]
    simp [digitsVal_append]

/-- Reading back a rendered decimal recovers it exactly (mantissa and
exponent), provided what follows cannot be mistaken for more digits. -/
theorem rt_num (dc : Dec) (rest : List Char) (hb : numBoundary rest) :
    parseNum ((Dec.render dc).toList ++ rest) = some (.num dc, rest) := by
  obtain ⟨m, e⟩ := dc
  have hds_digits := leftpad_digits m.natAbs (e + 1)
  have hds_val := digitsVal_leftpad m.natAbs (e + 1)
  set ds := (natDecChars m.natAbs).leftpad (e + 1) (digitChar 0) with hds_def
  have hlen : e + 1 ≤ ds.length := by
    rw [hds_def, List.leftpad_length]
    omega
  have hne : ds ≠ [] := by
    intro h0
    rw [h0] at hlen
    simp at hlen
  by_cases he : e = 0
  · subst he
    by_cases hm : m < 0
    · have hrender : (Dec.render ⟨m, 0⟩).toList ++ rest =
          '-' :: (ds ++ rest) := by
        show ((if m < 0 then "-" else "") ++ String.mk ds).toList ++ rest = _
        rw [if_pos hm]
        rfl
      rw [hrender, (parseNum_int ds rest hds_digits hne hb).2]
      have : -(digitsVal ds : Int) = m := by
        rw [hds_val]
        omega
      rw [this]
    · have hrender : (Dec.render ⟨m, 0⟩).toList ++ rest = ds ++ rest := by
        show ((if m < 0 then "-" else "") ++ String.mk ds).toList ++ rest = _
        rw [if_neg hm]
        rfl
      rw [hrender, (parseNum_int ds rest hds_digits hne hb).1]
      have : (digitsVal ds : Int) = m := by
        rw [hds_val]
        omega
      rw [this]
  · have htl : (ds.take (ds.length - e)).length = ds.length - e := by
      rw [List.length_take]
      omega
    have hdl : (ds.drop (ds.length - e)).length = e := by
      rw [List.length_drop]
      omega
    have htake_digits : ∀ c ∈ ds.take (ds.length - e), c.isDigit = true :=
      fun c hc => hds_digits c (List.mem_of_mem_take hc)
    have hdrop_digits : ∀ c ∈ ds.drop (ds.length - e), c.isDigit = true :=
      fun c hc => hds_digits c (List.mem_of_mem_drop hc)
    have htake_ne : ds.take (ds.length - e) ≠ [] := by
      intro h0
      have := congrArg List.length h0
      rw [htl] at this
      simp at this
      omega
    have hdrop_ne : ds.drop (ds.length - e) ≠ [] := by
      intro h0
      have := congrArg List.length h0
      rw [hdl] at this
      simp at this
      omega
    have hval2 : digitsVal (ds.take (ds.length - e) ++ ds.drop (ds.length - e)) =
        m.natAbs := by
      rw [List.take_append_drop, hds_val]
    have hrender0 : Dec.render ⟨m, e⟩ =
        (if m < 0 then "-" else "") ++ String.mk (ds.take (ds.length - e)) ++
          "." ++ String.mk (ds.drop (ds.length - e)) := by
      simp only [Dec.render]
      rw [← hds_def, if_neg he]
    by_cases hm : m < 0
    · have hrender : (Dec.render ⟨m, e⟩).toList ++ rest =
          '-' :: (ds.take (ds.length - e) ++
            ('.' :: (ds.drop (ds.length - e) ++ rest))) := by
        rw [hrender0, if_pos hm]
        simp [strToList_append]
      rw [hrender,
        (parseNum_frac _ _ rest htake_digits htake_ne hdrop_digits hdrop_ne hb).2]
      have : -(digitsVal (ds.take (ds.length - e) ++ ds.drop (ds.length - e)) : Int)
          = m := by
        rw [hval2]
        omega
      rw [this, hdl]
    · have hrender : (Dec.render ⟨m, e⟩).toList ++ rest =
          ds.take (ds.length - e) ++
            ('.' :: (ds.drop (ds.length - e) ++ rest)) := by
        rw [hrender0, if_neg hm]
        simp [strToList_append]
      rw [hrender,
        (parseNum_frac _ _ rest htake_digits htake_ne hdrop_digits hdrop_ne hb).1]
      have : (digitsVal (ds.take (ds.length - e) ++ ds.drop (ds.length - e)) : Int)
          = m := by
        rw [hval2]
        omega
      rw [this, hdl]

theorem hexChar_isHex (n : Nat) (h : n < 16) : isHexB (hexChar n) = true := by
  interval_cases n <;> decide

theorem hexVal_hexChar (n : Nat) (h : n < 16) : hexVal (hexChar n) = n := by
  interval_cases n <;> decide

theorem strMk_toList (s : String) : String.mk s.toList = s := rfl

/-- Reading a rendered string body undoes the escaping exactly. -/
theorem rt_stringBody (l : List Char) (rest : List Char) :
    parseStringBody (l.flatMap escapeChar ++ ('"' :: rest)) = some (l, rest) := by
  induction l with
  | nil =>
    show parseStringBody ('"' :: rest) = some ([], rest)
    rw [parseStringBody.eq_def]
    rfl
  | cons c cl ih =>
    rw [List.flatMap_cons, List.append_assoc]
    by_cases h1 : c = '"'
    · subst h1
      rw [show escapeChar '"' = ['\\', '"'] from rfl]
      show parseStringBody
        ('\\' :: '"' :: (cl.flatMap escapeChar ++ ('"' :: rest))) = _
      rw [parseStringBody.eq_def]
      show (parseStringBody (cl.flatMap escapeChar ++ ('"' :: rest))).map
        (fun pr => ('"' :: pr.1, pr.2)) = _
      rw [ih]
      rfl
    · by_cases h2 : c = '\\'
      · subst h2
        rw [show escapeChar '\\' = ['\\', '\\'] from rfl]
        show parseStringBody
          ('\\' :: '\\' :: (cl.flatMap escapeChar ++ ('"' :: rest))) = _
        rw [parseStringBody.eq_def]
        show (parseStringBody (cl.flatMap escapeChar ++ ('"' :: rest))).map
          (fun pr => ('\\' :: pr.1, pr.2)) = _
        rw [ih]
        rfl
      · by_cases h3 : c = '\n'
        · subst h3
          rw [show escapeChar '\n' = ['\\', 'n'] from rfl]
          show parseStringBody
            ('\\' :: 'n' :: (cl.flatMap escapeChar ++ ('"' :: rest))) = _
          rw [parseStringBody.eq_def]
          show (parseStringBody (cl.flatMap escapeChar ++ ('"' :: rest))).map
            (fun pr => ('\n' :: pr.1, pr.2)) = _
          rw [ih]
          rfl
        · by_cases h4 : c = '\t'
          · subst h4
            rw [show escapeChar '\t' = ['\\', 't'] from rfl]
            show parseStringBody
              ('\\' :: 't' :: (cl.flatMap escapeChar ++ ('"' :: rest))) = _
            rw [parseStringBody.eq_def]
            show (parseStringBody (cl.flatMap escapeChar ++ ('"' :: rest))).map
              (fun pr => ('\t' :: pr.1, pr.2)) = _
            rw [ih]
            rfl
          · by_cases h5 : c = '\r'
            · subst h5
              rw [show escapeChar '\r' = ['\\', 'r'] from rfl]
              show parseStringBody
                ('\\' :: 'r' :: (cl.flatMap escapeChar ++ ('"' :: rest))) = _
              rw [parseStringBody.eq_def]
              show (parseStringBody (cl.flatMap escapeChar ++ ('"' :: rest))).map
                (fun pr => ('\r' :: pr.1, pr.2)) = _
              rw [ih]
              rfl
            · by_cases h6 : c.toNat = 8
              · have hc8 : Char.ofNat 8 = c := by
                  rw [← h6, Char.ofNat_toNat]
                rw [show escapeChar c = ['\\', 'b'] from by
                  simp [escapeChar, h1, h2, h3, h4, h5, h6]]
                show parseStringBody
                  ('\\' :: 'b' :: (cl.flatMap escapeChar ++ ('"' :: rest))) = _
                rw [parseStringBody.eq_def]
                show (parseStringBody (cl.flatMap escapeChar ++ ('"' :: rest))).map
                  (fun pr => (Char.ofNat 8 :: pr.1, pr.2)) = _
                rw [ih, hc8]
                rfl
              · by_cases h7 : c.toNat = 12
                · have hc12 : Char.ofNat 12 = c := by
                    rw [← h7, Char.ofNat_toNat]
                  rw [show escapeChar c = ['\\', 'f'] from by
                    simp [escapeChar, h1, h2, h3, h4, h5, h6, h7]]
                  show parseStringBody
                    ('\\' :: 'f' ::
                      (cl.flatMap escapeChar ++ ('"' :: rest))) = _
                  rw [parseStringBody.eq_def]
                  show (parseStringBody
                    (cl.flatMap escapeChar ++ ('"' :: rest))).map
                    (fun pr => (Char.ofNat 12 :: pr.1, pr.2)) = _
                  rw [ih, hc12]
                  rfl
                · by_cases h8 : c.toNat < 32
                  · rw [show escapeChar c = ['\\', 'u', '0', '0',
                      hexChar (c.toNat / 16), hexChar (c.toNat % 16)] from by
                      simp [escapeChar, h1, h2, h3, h4, h5, h6, h7, h8]]
                    show parseStringBody
                      ('\\' :: 'u' :: '0' :: '0' :: hexChar (c.toNat / 16) ::
                        hexChar (c.toNat % 16) ::
                        (cl.flatMap escapeChar ++ ('"' :: rest))) = _
                    rw [parseStringBody.eq_def]
                    show (if (isHexB '0' && isHexB '0' &&
                        isHexB (hexChar (c.toNat / 16)) &&
                        isHexB (hexChar (c.toNat % 16))) = true then
                      (parseStringBody
                        (cl.flatMap escapeChar ++ ('"' :: rest))).map
                        (fun pr => (Char.ofNat
                          (((hexVal '0' * 16 + hexVal '0') * 16 +
                            hexVal (hexChar (c.toNat / 16))) * 16 +
                            hexVal (hexChar (c.toNat % 16))) :: pr.1, pr.2))
                      else none) = _
                    rw [if_pos (by
                      rw [hexChar_isHex _ (by omega), hexChar_isHex _ (by omega)]
                      decide)]
                    have hv : ((hexVal '0' * 16 + hexVal '0') * 16 +
                        hexVal (hexChar (c.toNat / 16))) * 16 +
                        hexVal (hexChar (c.toNat % 16)) = c.toNat := by
                      rw [hexVal_hexChar _ (by omega), hexVal_hexChar _ (by omega)]
                      have h0 : hexVal '0' = 0 := by decide
                      rw [h0]
                      omega
                    rw [hv, Char.ofNat_toNat, ih]
                    rfl
                  · rw [show escapeChar c = [c] from by
                      simp [escapeChar, h1, h2, h3, h4, h5, h6, h7, h8]]
                    show parseStringBody
                      (c :: (cl.flatMap escapeChar ++ ('"' :: rest))) = _
                    rw [parseStringBody.eq_def]
                    show (if c = '"' then
                        some ([], cl.flatMap escapeChar ++ ('"' :: rest))
                      else if c = '\\' then _
                      else (parseStringBody
                        (cl.flatMap escapeChar ++ ('"' :: rest))).map
                        (fun pr => (c :: pr.1, pr.2))) = _
                    rw [if_neg h1, if_neg h2, ih]
                    rfl

/-- The first character of a rendered decimal: a sign or a digit. -/
theorem decRender_head (dc : Dec) :
    ∃ c cs2, (Dec.render dc).toList = c :: cs2 ∧
      (c = '-' ∨ c.isDigit = true) := by
  obtain ⟨m, e⟩ := dc
  have hds_digits := leftpad_digits m.natAbs (e + 1)
  set ds := (natDecChars m.natAbs).leftpad (e + 1) (digitChar 0) with hds_def
  have hlen : e + 1 ≤ ds.length := by
    rw [hds_def, List.leftpad_length]
    omega
  obtain ⟨d0, dtl, hcons⟩ : ∃ d0 dtl, ds = d0 :: dtl := by
    cases hd : ds with
    | nil => rw [hd] at hlen; simp at hlen
    | cons a b => exact ⟨a, b, rfl⟩
  have hd0 : d0.isDigit = true := hds_digits d0 (by rw [hcons]; simp)
  by_cases he : e = 0
  · subst he
    by_cases hm : m < 0
    · refine ⟨'-', ds, ?_, Or.inl rfl⟩
      show ((if m < 0 then "-" else "") ++ String.mk ds).toList = _
      rw [if_pos hm]
      rfl
    · refine ⟨d0, dtl, ?_, Or.inr hd0⟩
      show ((if m < 0 then "-" else "") ++ String.mk ds).toList = _
      rw [if_neg hm]
      show ds = d0 :: dtl
      exact hcons
  · have hrender0 : Dec.render ⟨m, e⟩ =
        (if m < 0 then "-" else "") ++ String.mk (ds.take (ds.length - e)) ++
          "." ++ String.mk (ds.drop (ds.length - e)) := by
      simp only [Dec.render]
      rw [← hds_def, if_neg he]
    obtain ⟨k, hk⟩ : ∃ k, ds.length - e = k + 1 := ⟨ds.length - e - 1, by omega⟩
    have htake : ds.take (ds.length - e) = d0 :: dtl.take k := by
      rw [hk, hcons]
      rfl
    by_cases hm : m < 0
    · refine ⟨'-', ds.take (ds.length - e) ++
        ('.' :: ds.drop (ds.length - e)), ?_, Or.inl rfl⟩
      rw [hrender0, if_pos hm]
      rw [strToList_append, strToList_append, strToList_append]
      simp
    · refine ⟨d0, dtl.take k ++ ('.' :: ds.drop (ds.length - e)), ?_,
        Or.inr hd0⟩
      rw [hrender0, if_neg hm]
      rw [strToList_append, strToList_append, strToList_append]
      rw [show (String.mk (ds.take (ds.length - e))).toList =
        ds.take (ds.length - e) from rfl, htake]
      simp

/-- Character-class facts about the first character of a number token. -/
theorem head_props (c : Char) (h : c = '-' ∨ c.isDigit = true) :
    isWs c = false ∧ c ≠ 'n' ∧ c ≠ '"' ∧ c ≠ '[' ∧ c ≠ '\x7b' ∧
      c ≠ ']' ∧ c ≠ '\x7d' ∧ c ≠ ',' := by
  rcases h with rfl | h
  · exact ⟨by decide, by decide, by decide, by decide, by decide, by decide,
      by decide, by decide⟩
  · obtain ⟨w, hn, hq, hb, hbr, hrb, hrbr, hc, _, _, _⟩ := digitFacts c h
    exact ⟨w, hn, hq, hb, hbr, hrb, hrbr, hc⟩

theorem take4_ne (cs : List Char) (c : Char) (h : cs.head? = some c)
    (hn : c ≠ 'n') : ¬ (cs.take 4 = ['n', 'u', 'l', 'l']) := by
  cases cs with
  | nil => simp at h
  | cons a t =>
    rw [List.head?_cons, Option.some.injEq] at h
    intro h4
    rw [show (a :: t).take 4 = a :: t.take 3 from rfl] at h4
    injection h4 with ha _
    exact hn (by rw [← h]; exact ha)

theorem numBoundary_nil : numBoundary [] := by
  intro c hc
  simp at hc

theorem numBoundary_cons (c : Char) (l : List Char) (h1 : c.isDigit = false)
    (h2 : c ≠ '.') : numBoundary (c :: l) := by
  intro c2 hc2
  rw [List.head?_cons, Option.some.injEq] at hc2
  subst hc2
  exact ⟨h1, h2⟩

theorem numBoundary_items (xs : List Json) (d : Nat) (l : List Char) :
    numBoundary (renderItems xs d ++ '\n' :: l) := by
  cases xs with
  | nil =>
    rw [show renderItems [] d = [] from by rw [renderItems], List.nil_append]
    exact numBoundary_cons _ _ (by decide) (by decide)
  | cons x r =>
    rw [show renderItems (x :: r) d =
      ',' :: '\n' :: (indentChars d ++ renderVal x d ++ renderItems r d) from by
        rw [renderItems]]
    exact numBoundary_cons _ _ (by decide) (by decide)

theorem numBoundary_members (kvs : List (String × Json)) (d : Nat)
    (l : List Char) :
    numBoundary (renderMembers kvs d ++ '\n' :: l) := by
  cases kvs with
  | nil =>
    rw [show renderMembers [] d = [] from by rw [renderMembers],
      List.nil_append]
    exact numBoundary_cons _ _ (by decide) (by decide)
  | cons kv r =>
    rw [show renderMembers (kv :: r) d =
      ',' :: '\n' :: (indentChars d ++ renderStr kv.1 ++ ':' :: ' ' ::
        renderVal kv.2 d ++ renderMembers r d) from by rw [renderMembers]]
    exact numBoundary_cons _ _ (by decide) (by decide)

/-- Every rendered value begins with a significant character that is not
a closing token. -/
theorem renderVal_head (j : Json) (d : Nat) :
    ∃ c cs2, renderVal j d = c :: cs2 ∧ isWs c = false ∧ c ≠ ']' ∧
      c ≠ '\x7d' ∧ c ≠ ',' := by
  cases j with
  | null =>
    exact ⟨'n', _, by rw [renderVal], by decide, by decide, by decide,
      by decide⟩
  | num dc =>
    obtain ⟨c, cs2, hc, hd⟩ := decRender_head dc
    obtain ⟨w, _, _, _, _, hrb, hrbr, hcm⟩ := head_props c hd
    exact ⟨c, cs2, by rw [renderVal, hc], w, hrb, hrbr, hcm⟩
  | str s =>
    exact ⟨'"', _, by rw [renderVal, renderStr], by decide, by decide,
      by decide, by decide⟩
  | arr xs =>
    cases xs with
    | nil =>
      exact ⟨'[', _, by rw [renderVal], by decide, by decide, by decide,
        by decide⟩
    | cons x r =>
      exact ⟨'[', _, by rw [renderVal], by decide, by decide, by decide,
        by decide⟩
  | obj kvs =>
    cases kvs with
    | nil =>
      exact ⟨'\x7b', _, by rw [renderVal], by decide, by decide, by decide,
        by decide⟩
    | cons kv r =>
      exact ⟨'\x7b', _, by rw [renderVal], by decide, by decide, by decide,
        by decide⟩

theorem headq_eq (c : Char) (t : List Char) : (c :: t).head? = some c := rfl

theorem headq_ne (c c2 : Char) (t : List Char) (h : ¬ (c = c2)) :
    ¬ ((c :: t).head? = some c2) := by
  simp [h]

theorem take4_ne_cons (c : Char) (t : List Char) (hn : ¬ (c = 'n')) :
    ¬ ((c :: t).take 4 = ['n', 'u', 'l', 'l']) := by
  intro h4
  rw [show (c :: t).take 4 = c :: t.take 3 from rfl] at h4
  injection h4 with ha _
  exact hn ha

theorem sizeJ_pos (j : Json) : 1 ≤ sizeJ j := by
  cases j <;> (rw [sizeJ]; try omega)

theorem sizeItems_pos (xs : List Json) : 1 ≤ sizeItems xs := by
  cases xs <;> (rw [sizeItems]; try omega)

theorem sizeMembers_pos (kvs : List (String × Json)) : 1 ≤ sizeMembers kvs := by
  cases kvs <;> (rw [sizeMembers]; try omega)

mutual

/-- The reader undoes the renderer: one value, at any depth, after any
leading whitespace, before any boundary-respecting remainder. -/
theorem rt_val (j : Json) (f d : Nat) (pre rest : List Char)
    (hf : sizeJ j ≤ f) (hpre : ∀ c ∈ pre, isWs c = true)
    (hb : numBoundary rest) :
    parseVal f (pre ++ (renderVal j d ++ rest)) = some (j, rest) := by
  obtain ⟨f, rfl⟩ : ∃ g, f = g + 1 := ⟨f - 1, by have := sizeJ_pos j; omega⟩
  cases j with
  | null =>
    rw [show renderVal .null d = ['n', 'u', 'l', 'l'] from by rw [renderVal]]
    rw [parseVal]
    have hskip : skipWs (pre ++ (['n', 'u', 'l', 'l'] ++ rest)) =
        'n' :: 'u' :: 'l' :: 'l' :: rest := by
      rw [skipWs_append_ws _ _ hpre]
      show skipWs ('n' :: ('u' :: 'l' :: 'l' :: rest)) = _
      rw [skipWs_cons_not _ _ (by decide)]
    simp only [hskip]
    rw [if_pos (show ('n' :: 'u' :: 'l' :: 'l' :: rest).take 4 =
      ['n', 'u', 'l', 'l'] from rfl)]
    rfl
  | num dc =>
    rw [show renderVal (.num dc) d = (Dec.render dc).toList from by
      rw [renderVal]]
    obtain ⟨c, cs2, hc, hd⟩ := decRender_head dc
    obtain ⟨hw, hn, hq, hbr, hbc, _, _, _⟩ := head_props c hd
    have hskip : skipWs (pre ++ ((Dec.render dc).toList ++ rest)) =
        (Dec.render dc).toList ++ rest := by
      rw [skipWs_append_ws _ _ hpre, hc]
      show skipWs (c :: (cs2 ++ rest)) = _
      rw [skipWs_cons_not _ _ hw]
      rfl
    have hh : ((Dec.render dc).toList ++ rest).head? = some c := by
      rw [hc]
      rfl
    rw [parseVal]
    simp only [hskip]
    rw [if_neg (take4_ne _ c hh hn)]
    rw [if_neg (show ¬ (((Dec.render dc).toList ++ rest).head? = some '"') from
      by rw [hh]; simp [hq])]
    rw [if_neg (show ¬ (((Dec.render dc).toList ++ rest).head? = some '[') from
      by rw [hh]; simp [hbr])]
    rw [if_neg (show ¬ (((Dec.render dc).toList ++ rest).head? = some '\x7b')
      from by rw [hh]; simp [hbc])]
    exact rt_num dc rest hb
  | str s =>
    rw [show renderVal (.str s) d =
      '"' :: (s.toList.flatMap escapeChar ++ ['"']) from by
        rw [renderVal, renderStr]]
    have hskip : skipWs (pre ++
        (('"' :: (s.toList.flatMap escapeChar ++ ['"'])) ++ rest)) =
        '"' :: ((s.toList.flatMap escapeChar ++ ['"']) ++ rest) := by
      rw [skipWs_append_ws _ _ hpre]
      show skipWs ('"' :: ((s.toList.flatMap escapeChar ++ ['"']) ++ rest)) = _
      rw [skipWs_cons_not _ _ (by decide)]
    rw [parseVal]
    simp only [hskip]
    rw [if_neg (take4_ne_cons '"' _ (by decide))]
    rw [if_pos (headq_eq _ _)]
    show (parseStringBody ((s.toList.flatMap escapeChar ++ ['"']) ++ rest)).map
      _ = _
    rw [List.append_assoc]
    show (parseStringBody (s.toList.flatMap escapeChar ++ ('"' :: rest))).map
      _ = _
    rw [rt_stringBody]
    show some (Json.str (String.mk s.toList), rest) = _
    rw [strMk_toList]
  | arr xs =>
    cases xs with
    | nil =>
      rw [show renderVal (.arr []) d = ['[', ']'] from by rw [renderVal]]
      have hskip : skipWs (pre ++ (['[', ']'] ++ rest)) =
          '[' :: (']' :: rest) := by
        rw [skipWs_append_ws _ _ hpre]
        show skipWs ('[' :: (']' :: rest)) = _
        rw [skipWs_cons_not _ _ (by decide)]
      rw [parseVal]
      simp only [hskip]
      rw [if_neg (take4_ne_cons '[' _ (by decide))]
      rw [if_neg (headq_ne '[' '"' _ (by decide))]
      rw [if_pos (headq_eq _ _)]
      show (if (skipWs (']' :: rest)).head? = some ']' then
        some (Json.arr [], (skipWs (']' :: rest)).tail) else _) = _
      rw [skipWs_cons_not _ _ (by decide)]
      rw [if_pos (headq_eq _ _)]
      rfl
    | cons x xs =>
      rw [show renderVal (.arr (x :: xs)) d =
        '[' :: '\n' :: (indentChars (d + 1) ++ renderVal x (d + 1) ++
          renderItems xs (d + 1) ++
          '\n' :: (indentChars d ++ [']'])) from by rw [renderVal]]
      obtain ⟨cx, csx, hcx, hwsx, hrbx, _, _⟩ := renderVal_head x (d + 1)
      have hL : (indentChars (d + 1) ++ renderVal x (d + 1) ++
          renderItems xs (d + 1) ++ '\n' :: (indentChars d ++ [']'])) ++ rest =
          indentChars (d + 1) ++ (renderVal x (d + 1) ++
            (renderItems xs (d + 1) ++
              ('\n' :: (indentChars d ++ (']' :: rest))))) := by
        simp [List.append_assoc]
      have hskip : skipWs (pre ++ (('[' :: '\n' ::
          (indentChars (d + 1) ++ renderVal x (d + 1) ++
            renderItems xs (d + 1) ++ '\n' :: (indentChars d ++ [']']))) ++
            rest)) =
          '[' :: ('\n' :: (indentChars (d + 1) ++ (renderVal x (d + 1) ++
            (renderItems xs (d + 1) ++
              ('\n' :: (indentChars d ++ (']' :: rest))))))) := by

        rw [skipWs_append_ws _ _ hpre]
        show skipWs ('[' :: ('\n' :: ((indentChars (d + 1) ++
          renderVal x (d + 1) ++ renderItems xs (d + 1) ++
          '\n' :: (indentChars d ++ [']'])) ++ rest))) = _
        rw [skipWs_cons_not _ _ (by decide), hL]
      rw [parseVal]
      simp only [hskip]
      rw [if_neg (take4_ne_cons '[' _ (by decide))]
      rw [if_neg (headq_ne '[' '"' _ (by decide))]
      rw [if_pos (headq_eq _ _)]
      have hskip2 : skipWs ('\n' :: (indentChars (d + 1) ++
          (renderVal x (d + 1) ++ (renderItems xs (d + 1) ++
            ('\n' :: (indentChars d ++ (']' :: rest))))))) =
          renderVal x (d + 1) ++ (renderItems xs (d + 1) ++
            ('\n' :: (indentChars d ++ (']' :: rest)))) := by
        show skipWs ('\n' :: (indentChars (d + 1) ++ _)) = _
        rw [show ('\n' :: (indentChars (d + 1) ++ (renderVal x (d + 1) ++
          (renderItems xs (d + 1) ++ ('\n' :: (indentChars d ++
            (']' :: rest))))))) = ('\n' :: indentChars (d + 1)) ++
          (renderVal x (d + 1) ++ (renderItems xs (d + 1) ++
            ('\n' :: (indentChars d ++ (']' :: rest))))) from by simp]
        rw [skipWs_append_ws _ _ (by
          intro c hc
          rcases List.mem_cons.mp hc with rfl | hc2
          · decide
          · exact indentChars_ws _ _ hc2)]
        rw [hcx]
        show skipWs (cx :: (csx ++ _)) = _
        rw [skipWs_cons_not _ _ hwsx, List.cons_append]
      simp only [List.tail_cons, hskip2]
      rw [if_neg (by
        rw [hcx]
        show ¬ ((cx :: (csx ++ _)).head? = some ']')
        simp [hrbx])]
      simp only [sizeJ, sizeItems] at hf
      have h1 := rt_val x f (d + 1) [] (renderItems xs (d + 1) ++
        ('\n' :: (indentChars d ++ (']' :: rest)))) (by omega)
        (by intro c hc; exact absurd hc (List.not_mem_nil c))
        (numBoundary_items xs (d + 1) _)
      rw [List.nil_append] at h1
      rw [h1, Option.some_bind]
      rw [rt_items xs f (d + 1) (indentChars d) rest (by omega)
        (indentChars_ws d)]
      rfl
  | obj kvs =>
    cases kvs with
    | nil =>
      rw [show renderVal (.obj []) d = ['\x7b', '\x7d'] from by rw [renderVal]]
      have hskip : skipWs (pre ++ (['\x7b', '\x7d'] ++ rest)) =
          '\x7b' :: ('\x7d' :: rest) := by
        rw [skipWs_append_ws _ _ hpre]
        show skipWs ('\x7b' :: ('\x7d' :: rest)) = _
        rw [skipWs_cons_not _ _ (by decide)]
      rw [parseVal]
      simp only [hskip]
      rw [if_neg (take4_ne_cons '\x7b' _ (by decide))]
      rw [if_neg (headq_ne '\x7b' '"' _ (by decide))]
      rw [if_neg (headq_ne '\x7b' '[' _ (by decide))]
      rw [if_pos (headq_eq _ _)]
      show (if (skipWs ('\x7d' :: rest)).head? = some '\x7d' then
        some (Json.obj [], (skipWs ('\x7d' :: rest)).tail) else _) = _
      rw [skipWs_cons_not _ _ (by decide)]
      rw [if_pos (headq_eq _ _)]
      rfl
    | cons kv kvs =>
      rw [show renderVal (.obj (kv :: kvs)) d =
        '\x7b' :: '\n' :: (indentChars (d + 1) ++ renderStr kv.1 ++
          ':' :: ' ' :: renderVal kv.2 (d + 1) ++ renderMembers kvs (d + 1) ++
          '\n' :: (indentChars d ++ ['\x7d'])) from by rw [renderVal]]
      have hL : (indentChars (d + 1) ++ renderStr kv.1 ++
          ':' :: ' ' :: renderVal kv.2 (d + 1) ++ renderMembers kvs (d + 1) ++
          '\n' :: (indentChars d ++ ['\x7d'])) ++ rest =
          indentChars (d + 1) ++ (renderStr kv.1 ++
            (':' :: ' ' :: (renderVal kv.2 (d + 1) ++
              (renderMembers kvs (d + 1) ++
                ('\n' :: (indentChars d ++ ('\x7d' :: rest))))))) := by
        simp [List.append_assoc]
      have hskip : skipWs (pre ++ (('\x7b' :: '\n' ::
          (indentChars (d + 1) ++ renderStr kv.1 ++
            ':' :: ' ' :: renderVal kv.2 (d + 1) ++
            renderMembers kvs (d + 1) ++
            '\n' :: (indentChars d ++ ['\x7d']))) ++ rest)) =
          '\x7b' :: ('\n' :: (indentChars (d + 1) ++ (renderStr kv.1 ++
            (':' :: ' ' :: (renderVal kv.2 (d + 1) ++
              (renderMembers kvs (d + 1) ++
                ('\n' :: (indentChars d ++ ('\x7d' :: rest))))))))) := by
        rw [skipWs_append_ws _ _ hpre]
        show skipWs ('\x7b' :: ('\n' :: ((indentChars (d + 1) ++
          renderStr kv.1 ++ ':' :: ' ' :: renderVal kv.2 (d + 1) ++
          renderMembers kvs (d + 1) ++
          '\n' :: (indentChars d ++ ['\x7d'])) ++ rest))) = _
        rw [skipWs_cons_not _ _ (by decide), hL]
      rw [parseVal]
      simp only [hskip]
      rw [if_neg (take4_ne_cons '\x7b' _ (by decide))]
      rw [if_neg (headq_ne '\x7b' '"' _ (by decide))]
      rw [if_neg (headq_ne '\x7b' '[' _ (by decide))]
      rw [if_pos (headq_eq _ _)]
      have hskip2 : skipWs ('\n' :: (indentChars (d + 1) ++ (renderStr kv.1 ++
          (':' :: ' ' :: (renderVal kv.2 (d + 1) ++
            (renderMembers kvs (d + 1) ++
              ('\n' :: (indentChars d ++ ('\x7d' :: rest))))))))) =
          renderStr kv.1 ++ (':' :: ' ' :: (renderVal kv.2 (d + 1) ++
            (renderMembers kvs (d + 1) ++
              ('\n' :: (indentChars d ++ ('\x7d' :: rest)))))) := by
        rw [show ('\n' :: (indentChars (d + 1) ++ (renderStr kv.1 ++
          (':' :: ' ' :: (renderVal kv.2 (d + 1) ++
            (renderMembers kvs (d + 1) ++
              ('\n' :: (indentChars d ++ ('\x7d' :: rest))))))))) =
          ('\n' :: indentChars (d + 1)) ++ (renderStr kv.1 ++
            (':' :: ' ' :: (renderVal kv.2 (d + 1) ++
              (renderMembers kvs (d + 1) ++
                ('\n' :: (indentChars d ++ ('\x7d' :: rest))))))) from by simp]
        rw [skipWs_append_ws _ _ (by
          intro c hc
          rcases List.mem_cons.mp hc with rfl | hc2
          · decide
          · exact indentChars_ws _ _ hc2)]
        rw [renderStr]
        show skipWs ('"' :: _) = _
        rw [skipWs_cons_not _ _ (by decide), List.cons_append]
        rfl
      simp only [List.tail_cons, hskip2]
      have hh2 : (renderStr kv.1 ++ (':' :: ' ' :: (renderVal kv.2 (d + 1) ++
          (renderMembers kvs (d + 1) ++
            ('\n' :: (indentChars d ++ ('\x7d' :: rest))))))).head? =
          some '"' := by
        rw [renderStr]
        rfl
      rw [if_neg (by rw [hh2]; decide)]
      simp only [sizeJ, sizeMembers] at hf
      have h1 := rt_member kv f (d + 1) []
        (renderMembers kvs (d + 1) ++
          ('\n' :: (indentChars d ++ ('\x7d' :: rest)))) (by omega)
        (by intro c hc; exact absurd hc (List.not_mem_nil c))
        (numBoundary_members kvs (d + 1) _)
      rw [List.nil_append] at h1
      rw [h1, Option.some_bind]
      rw [rt_members kvs f (d + 1) (indentChars d) rest (by omega)
        (indentChars_ws d)]
      rfl
termination_by f
decreasing_by
  all_goals omega

/-- The reader undoes the renderer for one `"key": value` member. -/
theorem rt_member (kv : String × Json) (f d : Nat) (pre rest : List Char)
    (hf : 1 + sizeJ kv.2 ≤ f) (hpre : ∀ c ∈ pre, isWs c = true)
    (hb : numBoundary rest) :
    parseMember f (pre ++ (renderStr kv.1 ++
      (':' :: ' ' :: (renderVal kv.2 d ++ rest)))) = some (kv, rest) := by
  obtain ⟨f, rfl⟩ : ∃ g, f = g + 1 := ⟨f - 1, by omega⟩
  obtain ⟨k1, v⟩ := kv
  have hskip : skipWs (pre ++ (renderStr k1 ++
      (':' :: ' ' :: (renderVal v d ++ rest)))) =
      '"' :: ((k1.toList.flatMap escapeChar ++ ['"']) ++
        (':' :: ' ' :: (renderVal v d ++ rest))) := by
    rw [skipWs_append_ws _ _ hpre, renderStr]
    show skipWs ('"' :: ((k1.toList.flatMap escapeChar ++ ['"']) ++
      (':' :: ' ' :: (renderVal v d ++ rest)))) = _
    rw [skipWs_cons_not _ _ (by decide)]
  rw [parseMember]
  simp only [hskip]
  rw [if_pos (headq_eq _ _)]
  simp only [List.tail_cons]
  rw [List.append_assoc]
  show (parseStringBody (k1.toList.flatMap escapeChar ++
    ('"' :: (':' :: ' ' :: (renderVal v d ++ rest))))).bind _ = _
  rw [rt_stringBody, Option.some_bind]
  have hskip3 : skipWs (':' :: ' ' :: (renderVal v d ++ rest)) =
      ':' :: ' ' :: (renderVal v d ++ rest) :=
    skipWs_cons_not _ _ (by decide)
  simp only [hskip3]
  rw [if_pos (headq_eq _ _)]
  simp only [List.tail_cons]
  have h1 := rt_val v f d [' '] rest (by simp only [] at hf; omega)
    (by intro c hc; rcases List.mem_singleton.mp hc with rfl; decide) hb
  rw [List.singleton_append] at h1
  rw [h1]
  show some ((String.mk k1.toList, v), rest) = _
  rw [strMk_toList]
termination_by f
decreasing_by
  all_goals omega

/-- The reader undoes the renderer for the items after the first. -/
theorem rt_items (xs : List Json) (f d : Nat) (ind rest : List Char)
    (hf : sizeItems xs ≤ f) (hind : ∀ c ∈ ind, isWs c = true) :
    parseItems f (renderItems xs d ++ ('\n' :: (ind ++ (']' :: rest)))) =
      some (xs, rest) := by
  obtain ⟨f, rfl⟩ : ∃ g, f = g + 1 :=
    ⟨f - 1, by have := sizeItems_pos xs; omega⟩
  cases xs with
  | nil =>
    rw [show renderItems [] d = [] from by rw [renderItems], List.nil_append]
    rw [parseItems]
    have hskip : skipWs ('\n' :: (ind ++ (']' :: rest))) = ']' :: rest := by
      show skipWs ('\n' :: (ind ++ (']' :: rest))) = _
      rw [show ('\n' :: (ind ++ (']' :: rest))) =
        ('\n' :: ind) ++ (']' :: rest) from by simp]
      rw [skipWs_append_ws _ _ (by
        intro c hc
        rcases List.mem_cons.mp hc with rfl | hc2
        · decide
        · exact hind c hc2)]
      rw [skipWs_cons_not _ _ (by decide)]
    simp only [hskip]
    rw [if_pos (headq_eq _ _)]
    rfl
  | cons x xs =>
    rw [show renderItems (x :: xs) d =
      ',' :: '\n' :: (indentChars d ++ renderVal x d ++ renderItems xs d)
      from by rw [renderItems]]
    have hL : (',' :: '\n' :: (indentChars d ++ renderVal x d ++
        renderItems xs d)) ++ ('\n' :: (ind ++ (']' :: rest))) =
        ',' :: '\n' :: (indentChars d ++ (renderVal x d ++
          (renderItems xs d ++ ('\n' :: (ind ++ (']' :: rest)))))) := by
      simp [List.append_assoc]
    rw [hL, parseItems]
    have hskip : skipWs (',' :: '\n' :: (indentChars d ++ (renderVal x d ++
        (renderItems xs d ++ ('\n' :: (ind ++ (']' :: rest))))))) =
        ',' :: '\n' :: (indentChars d ++ (renderVal x d ++
          (renderItems xs d ++ ('\n' :: (ind ++ (']' :: rest)))))) :=
      skipWs_cons_not _ _ (by decide)
    simp only [hskip]
    rw [if_neg (headq_ne ',' ']' _ (by decide))]
    rw [if_pos (headq_eq _ _)]
    simp only [List.tail_cons]
    simp only [sizeItems] at hf
    have h1 := rt_val x f d ('\n' :: indentChars d)
      (renderItems xs d ++ ('\n' :: (ind ++ (']' :: rest)))) (by omega)
      (by
        intro c hc
        rcases List.mem_cons.mp hc with rfl | hc2
        · decide
        · exact indentChars_ws _ _ hc2)
      (numBoundary_items xs d _)
    rw [List.cons_append] at h1
    rw [h1, Option.some_bind]
    rw [rt_items xs f d ind rest (by omega) hind]
    rfl
termination_by f
decreasing_by
  all_goals omega

/-- The reader undoes the renderer for the members after the first. -/
theorem rt_members (kvs : List (String × Json)) (f d : Nat)
    (ind rest : List Char) (hf : sizeMembers kvs ≤ f)
    (hind : ∀ c ∈ ind, isWs c = true) :
    parseMembers f
      (renderMembers kvs d ++ ('\n' :: (ind ++ ('\x7d' :: rest)))) =
      some (kvs, rest) := by
  obtain ⟨f, rfl⟩ : ∃ g, f = g + 1 :=
    ⟨f - 1, by have := sizeMembers_pos kvs; omega⟩
  cases kvs with
  | nil =>
    rw [show renderMembers [] d = [] from by rw [renderMembers],
      List.nil_append]
    rw [parseMembers]
    have hskip : skipWs ('\n' :: (ind ++ ('\x7d' :: rest))) =
        '\x7d' :: rest := by
      rw [show ('\n' :: (ind ++ ('\x7d' :: rest))) =
        ('\n' :: ind) ++ ('\x7d' :: rest) from by simp]
      rw [skipWs_append_ws _ _ (by
        intro c hc
        rcases List.mem_cons.mp hc with rfl | hc2
        · decide
        · exact hind c hc2)]
      rw [skipWs_cons_not _ _ (by decide)]
    simp only [hskip]
    rw [if_pos (headq_eq _ _)]
    rfl
  | cons kv kvs =>
    rw [show renderMembers (kv :: kvs) d =
      ',' :: '\n' :: (indentChars d ++ renderStr kv.1 ++
        ':' :: ' ' :: renderVal kv.2 d ++ renderMembers kvs d)
      from by rw [renderMembers]]
    have hL : (',' :: '\n' :: (indentChars d ++ renderStr kv.1 ++
        ':' :: ' ' :: renderVal kv.2 d ++ renderMembers kvs d)) ++
        ('\n' :: (ind ++ ('\x7d' :: rest))) =
        ',' :: '\n' :: (indentChars d ++ (renderStr kv.1 ++
          (':' :: ' ' :: (renderVal kv.2 d ++ (renderMembers kvs d ++
            ('\n' :: (ind ++ ('\x7d' :: rest)))))))) := by
      simp [List.append_assoc]
    rw [hL, parseMembers]
    have hskip : skipWs (',' :: '\n' :: (indentChars d ++ (renderStr kv.1 ++
        (':' :: ' ' :: (renderVal kv.2 d ++ (renderMembers kvs d ++
          ('\n' :: (ind ++ ('\x7d' :: rest))))))))) =
        ',' :: '\n' :: (indentChars d ++ (renderStr kv.1 ++
          (':' :: ' ' :: (renderVal kv.2 d ++ (renderMembers kvs d ++
            ('\n' :: (ind ++ ('\x7d' :: rest)))))))) :=
      skipWs_cons_not _ _ (by decide)
    simp only [hskip]
    rw [if_neg (headq_ne ',' '\x7d' _ (by decide))]
    rw [if_pos (headq_eq _ _)]
    simp only [List.tail_cons]
    simp only [sizeMembers] at hf
    have h1 := rt_member kv f d ('\n' :: indentChars d)
      (renderMembers kvs d ++ ('\n' :: (ind ++ ('\x7d' :: rest))))
      (by omega)
      (by
        intro c hc
        rcases List.mem_cons.mp hc with rfl | hc2
        · decide
        · exact indentChars_ws _ _ hc2)
      (numBoundary_members kvs d _)
    rw [List.cons_append] at h1
    rw [h1, Option.some_bind]
    rw [rt_members kvs f d ind rest (by omega) hind]
    rfl
termination_by f
decreasing_by
  all_goals omega

end

mutual

/-- The fuel bound: a value's nesting size never exceeds its rendered
length plus one. -/
theorem sizeJ_le_renderVal : ∀ (j : Json) (d : Nat),
    sizeJ j ≤ (renderVal j d).length + 1
  | .null, d => by
    rw [sizeJ, renderVal]
    simp
  | .num dc, d => by
    rw [sizeJ]
    omega
  | .str s, d => by
    rw [sizeJ]
    omega
  | .arr [], d => by
    rw [sizeJ, sizeItems, renderVal]
    simp
  | .arr (x :: xs), d => by
    have h1 := sizeJ_le_renderVal x (d + 1)
    have h2 := sizeItems_le_renderItems xs (d + 1)
    rw [sizeJ, sizeItems, renderVal]
    simp only [List.length_cons, List.length_append]
    omega
  | .obj [], d => by
    rw [sizeJ, sizeMembers, renderVal]
    simp
  | .obj (kv :: kvs), d => by
    have h1 := sizeJ_le_renderVal kv.2 (d + 1)
    have h2 := sizeMembers_le_renderMembers kvs (d + 1)
    rw [sizeJ, sizeMembers, renderVal]
    simp only [List.length_cons, List.length_append]
    omega

theorem sizeItems_le_renderItems : ∀ (xs : List Json) (d : Nat),
    sizeItems xs ≤ (renderItems xs d).length + 1
  | [], d => by
    rw [sizeItems, renderItems]
    simp
  | x :: xs, d => by
    have h1 := sizeJ_le_renderVal x d
    have h2 := sizeItems_le_renderItems xs d
    rw [sizeItems, renderItems]
    simp only [List.length_cons, List.length_append]
    omega

theorem sizeMembers_le_renderMembers : ∀ (kvs : List (String × Json)) (d : Nat),
    sizeMembers kvs ≤ (renderMembers kvs d).length + 1
  | [], d => by
    rw [sizeMembers, renderMembers]
    simp
  | kv :: kvs, d => by
    have h1 := sizeJ_le_renderVal kv.2 d
    have h2 := sizeMembers_le_renderMembers kvs d
    rw [sizeMembers, renderMembers]
    simp only [List.length_cons, List.length_append]
    omega

end

/-- C6: parsing the JSON report back recovers the snapshot's JSON value
exactly — serialisation loses no field and no value. -/
theorem json_report_roundtrip (s : Snapshot) :
    parseJson (json_report s) = some (snapshotJson s) := by
  unfold parseJson json_report
  have h1 := rt_val (snapshotJson s)
    ((renderVal (snapshotJson s) 0).length + 1) 0 [] []
    (sizeJ_le_renderVal _ 0)
    (by intro c hc; exact absurd hc (List.not_mem_nil c)) numBoundary_nil
  rw [List.nil_append, List.append_nil] at h1
  show (parseVal ((renderVal (snapshotJson s) 0).length + 1)
    (renderVal (snapshotJson s) 0)).bind _ = _
  rw [h1]
  rfl

end SysReport
